import Mathlib

/-
Verification of the Lit-DI resolution engine (RootInjector, ProviderRegistry,
ValueNotifier) as a shallow embedding.  JavaScript Maps are modelled as
insertion-ordered association lists, JS numbers appearing in subscriber
counts as `Option Int` (with `none` standing for NaN), and the promise /
microtask machinery as an explicit defunctionalized task queue.  All
recursion through the dependency graph is fuel-indexed; exhausting the fuel
models unbounded recursion (a stack overflow in the source).
-/

namespace LitDI

/-- Decidable equality for `Except` results. -/
instance {e a : Type} [DecidableEq e] [DecidableEq a] : DecidableEq (Except e a) := fun x y =>
  match x, y with
  | .error u, .error v => if h : u = v then .isTrue (by rw [h]) else .isFalse (by simp [h])
  | .error _, .ok _ => .isFalse (by simp)
  | .ok _, .error _ => .isFalse (by simp)
  | .ok u, .ok v => if h : u = v then .isTrue (by rw [h]) else .isFalse (by simp [h])

/-- Tokens are identity keys; we model identities as naturals. -/
abbrev Tok := Nat

/-- JS runtime values reaching the injector: `undefined`, integers, NaN. -/
inductive JSVal where
  | undefined
  | int (n : Int)
  | nan
deriving DecidableEq

/-- JS `+` restricted to our value domain (undefined/NaN poison the sum). -/
def jsAdd (a b : JSVal) : JSVal :=
  match a, b with
  | .int x, .int y => .int (x + y)
  | _, _ => .nan

/-- Insertion-ordered map lookup (JS `Map.get`, first match). -/
def mget {β : Type} : List (Nat × β) → Nat → Option β
  | [], _ => none
  | (k, v) :: rest, k' => if k = k' then some v else mget rest k'

/-- JS `Map.set`: replace in place if the key exists, else append. -/
def mset {β : Type} : List (Nat × β) → Nat → β → List (Nat × β)
  | [], k, v => [(k, v)]
  | (k', v') :: rest, k, v =>
      if k' = k then (k, v) :: rest else (k', v') :: mset rest k v

/-- JS `Map.delete`. -/
def mdel {β : Type} : List (Nat × β) → Nat → List (Nat × β)
  | [], _ => []
  | (k', v') :: rest, k => if k' = k then rest else (k', v') :: mdel rest k

/-- JS `Set.add` (insertion-ordered, no duplicates). -/
def sadd (l : List Nat) (x : Nat) : List Nat :=
  if x ∈ l then l else l ++ [x]

/-- An instance-cache entry: a settled value or a promise object. -/
inductive Cached where
  | val (v : JSVal)
  | prom (pid : Nat)
deriving DecidableEq

/-- Synchronous abnormal outcomes: a thrown JS error, or fuel exhaustion
(modelling unbounded recursion / stack overflow). -/
inductive Exn where
  | thrown (msg : String)
  | fuelOut
deriving DecidableEq

/-- What a factory invocation produces: a plain value, a promise that later
settles with a value, or a synchronous throw. -/
inductive FacRes where
  | val (v : JSVal)
  | later (v : JSVal)
  | thrown (msg : String)

/-- A declared dependency (`Dep` in provider-registry.ts). -/
structure DepE where
  token : Tok
  optional : Bool := false

/-- Factory bodies are input data: they receive the `injectSync` helper built
by `compute` and a read of the injector's settled cache (the view a factory
obtains by `await inject(tok)` for dependencies that are already cached). -/
abbrev Fac := (Tok → Except String JSVal) → (Tok → JSVal) → FacRes

/-- Provider declarations (`Provider` in provider-registry.ts); `dispose` is
input data recording only whether its invocation throws. -/
structure Prov where
  token : Tok
  value : JSVal := .undefined
  deps : List DepE := []
  factory : Option Fac := none
  dispose : Option Bool := none

/-- Settlement outcome of a promise. -/
inductive POut where
  | resolved (v : JSVal)
  | rejected (msg : String)
deriving DecidableEq

/-- Promise state. -/
inductive PromSt where
  | pending
  | settled (o : POut)
deriving DecidableEq

/-- Defunctionalized promise reactions: exactly the `.then` callbacks the
source attaches. -/
inductive Reaction where
  | thenResolveBody (token : Tok) (target : Nat)
  | thenDeliver (token : Tok) (cid : Nat)
  | thenDeliverSub (token : Tok) (cid : Nat)
  | allTick (gid : Nat)
  | follow (target : Nat)
deriving DecidableEq

/-- Microtasks: a reaction fired with a settlement outcome, or an async
factory's own work completing. -/
inductive MTask where
  | react (r : Reaction) (o : POut)
  | settleLater (pid : Nat) (v : JSVal)
deriving DecidableEq

/-- A promise record: state plus reactions attached while pending. -/
structure PromRec where
  stp : PromSt
  reactions : List Reaction
deriving DecidableEq

/-- A `Promise.all(depPromises).then(() => runFactory())` group. -/
structure Group where
  remaining : Nat
  gtoken : Tok
  gprov : Prov
  target : Nat
  gdone : Bool

/-- A ValueNotifier: latest value plus subscribed consumer ids. -/
structure Notif where
  nvalue : JSVal := .undefined
  subs : List Nat := []
deriving DecidableEq

/-- The injector state (fields of RootInjector plus the promise heap,
microtask queue and observation instrumentation: factory call counts,
values delivered per consumer, dispose invocation counts). -/
structure St where
  providers : List (Tok × Prov) := []
  instances : List (Tok × Cached) := []
  notifs : List (Tok × Notif) := []
  dependents : List (Tok × List Tok) := []
  dependencies : List (Tok × List Tok) := []
  subCounts : List (Tok × Option Int) := []
  localToks : List Tok := []
  promises : List (Nat × PromRec) := []
  nextP : Nat := 0
  groups : List (Nat × Group) := []
  nextG : Nat := 0
  queue : List MTask := []
  calls : List (Tok × Nat) := []
  delivered : List (Nat × List JSVal) := []
  disposedCt : List (Tok × Nat) := []
  destroyed : Bool := false

/-- `this.instances.get(token)` combined with the `cached !== undefined`
check of resolve: an entry whose stored value is `undefined` is
indistinguishable from a missing entry. -/
def instGet (s : St) (t : Tok) : Option Cached :=
  match mget s.instances t with
  | some (.val .undefined) => none
  | some c => some c
  | none => none

def setInstance (s : St) (t : Tok) (c : Cached) : St :=
  { s with instances := mset s.instances t c }

def delInstance (s : St) (t : Tok) : St :=
  { s with instances := mdel s.instances t }

/-- Record a delivery of a value to a consumer callback. -/
def deliverTo (s : St) (cid : Nat) (v : JSVal) : St :=
  { s with delivered := mset s.delivered cid (((mget s.delivered cid).getD []) ++ [v]) }

/-- Deliver a value to each subscribed callback (ValueNotifier.updateObservers). -/
def deliverAll (s : St) (v : JSVal) : List Nat → St
  | [] => s
  | cid :: rest => deliverAll (deliverTo s cid v) v rest

/-- `ensureNotifier(token).setValue(v, force)`: stores the value and, when
`force` or the value changed under `Object.is`, notifies all subscribers. -/
def setValueN (s : St) (t : Tok) (v : JSVal) (force : Bool) : St :=
  let nf := (mget s.notifs t).getD {}
  let s1 := { s with notifs := mset s.notifs t { nf with nvalue := v } }
  if force || !(v = nf.nvalue : Bool) then deliverAll s1 v nf.subs else s1

/-- RootInjector.ensureNotifier. -/
def ensureNotif (s : St) (t : Tok) : St :=
  match mget s.notifs t with
  | some _ => s
  | none => { s with notifs := mset s.notifs t {} }

/-- JS `(counts.get(token) ?? 0) + 1` on our NaN-aware numbers. -/
def jAdd1 : Option (Option Int) → Option Int
  | none => some 1
  | some (some k) => some (k + 1)
  | some none => none

/-- JS `x <= 0` (false on NaN). -/
def jLeZero : Option Int → Bool
  | some k => decide (k ≤ 0)
  | none => false

/-- JS `x > 0` (false on NaN). -/
def jPos : Option Int → Bool
  | some k => decide (0 < k)
  | none => false

/-- The `add` closure of handleRequest: on subscribe, bump the subscriber
count and register with the notifier (which immediately invokes the callback
with the current value); otherwise a one-shot delivery of the current value. -/
def addFn (s : St) (t : Tok) (cid : Nat) (sub : Bool) : St :=
  let nf := (mget s.notifs t).getD {}
  if sub then
    let s1 := { s with subCounts := mset s.subCounts t (jAdd1 (mget s.subCounts t)) }
    let s2 := { s1 with notifs := mset s1.notifs t { nf with subs := sadd nf.subs cid } }
    deliverTo s2 cid nf.nvalue
  else deliverTo s cid nf.nvalue

/-- Allocate a fresh pending promise. -/
def freshProm (s : St) : St × Nat :=
  ({ s with promises := mset s.promises s.nextP ⟨.pending, []⟩, nextP := s.nextP + 1 },
   s.nextP)

/-- `Promise.reject(new Error(msg))`: a fresh, already-rejected promise. -/
def mkRejected (s : St) (msg : String) : St × Nat :=
  ({ s with promises := mset s.promises s.nextP ⟨.settled (.rejected msg), []⟩,
            nextP := s.nextP + 1 },
   s.nextP)

/-- Settle a pending promise: record the outcome and enqueue its reactions. -/
def settleP (s : St) (pid : Nat) (o : POut) : St :=
  match mget s.promises pid with
  | none => s
  | some pr =>
    match pr.stp with
    | .settled _ => s
    | .pending =>
        { s with promises := mset s.promises pid ⟨.settled o, []⟩,
                 queue := s.queue ++ pr.reactions.map (MTask.react · o) }

/-- Attach a `.then` reaction: stored while pending, enqueued immediately if
the promise has already settled. -/
def attachR (s : St) (pid : Nat) (r : Reaction) : St :=
  match mget s.promises pid with
  | none => s
  | some pr =>
    match pr.stp with
    | .pending =>
        { s with promises := mset s.promises pid { pr with reactions := pr.reactions ++ [r] } }
    | .settled o => { s with queue := s.queue ++ [MTask.react r o] }

/-- Register `dependents[depToken] += token` for one declared dependency. -/
def addDepEdge (s : St) (t : Tok) (d : Tok) : St :=
  { s with dependents := mset s.dependents d (sadd ((mget s.dependents d).getD []) t) }

/-- Lines 126-136 of root-injector.ts: record every dependency edge, then
overwrite `dependencies[token]` with the declared dep-token set. -/
def registerEdges (s : St) (t : Tok) (deps : List DepE) : St :=
  let s1 := deps.foldl (fun s d => addDepEdge s t d.token) s
  let dts := deps.foldl (fun acc d => sadd acc d.token) []
  { s1 with dependencies := mset s1.dependencies t dts }

/-- The `injectSync` helper compute hands to factories (lines 174-176):
it unconditionally throws, whatever token is asked for. -/
def injectSyncH : Tok → Except String JSVal :=
  fun _ => .error "injectSync not implemented"

/-- The settled-cache view a factory can read. -/
def readCache (s : St) (t : Tok) : JSVal :=
  match mget s.instances t with
  | some (.val v) => v
  | _ => .undefined

/-- Outcome of `runFactory`. -/
inductive FOut where
  | fval (v : JSVal)
  | fprom (pid : Nat)
  | fthrown (msg : String)

/-- `runFactory`: count the invocation, run the factory body with the helper
surface; an async result becomes a fresh pending promise whose own work is a
queued `settleLater` task. -/
def runFactory (s : St) (t : Tok) (p : Prov) : St × FOut :=
  let s0 := { s with calls := mset s.calls t (((mget s.calls t).getD 0) + 1) }
  match p.factory with
  | none => (s0, .fthrown "Provider missing value or factory")
  | some f =>
    match f injectSyncH (readCache s0) with
    | .val v => (s0, .fval v)
    | .thrown e => (s0, .fthrown e)
    | .later v =>
        let (s1, pid) := freshProm s0
        ({ s1 with queue := s1.queue ++ [.settleLater pid v] }, .fprom pid)

/-- Result of the dependency-resolution loop of compute: either completion
with the async flag and collected dep promises, or the short-circuit
`return Promise.reject(...)` on a missing required dependency. -/
inductive DepsOut where
  | done (asy : Bool) (dps : List Nat)
  | reject (pid : Nat)

mutual

/-- RootInjector.resolve (lines 96-116), fuel-indexed. -/
def resolveT : Nat → St → Tok → Prov → St × Except Exn Cached
  | 0, s, _, _ => (s, .error .fuelOut)
  | n + 1, s, t, p =>
    match instGet s t with
    | some c => (s, .ok c)
    | none =>
      match computeT n s t p with
      | (s1, .error e) => (s1, .error e)
      | (s1, .ok (.val v)) =>
          let s2 := setInstance s1 t (.val v)
          let s3 := setValueN s2 t v true
          match notifyDepsT n s3 t with
          | (s4, .error e) => (s4, .error e)
          | (s4, .ok _) => (s4, .ok (.val v))
      | (s1, .ok (.prom q)) =>
          let (s2, pp) := freshProm s1
          let s3 := attachR s2 q (.thenResolveBody t pp)
          let s4 := setInstance s3 t (.prom pp)
          (s4, .ok (.prom pp))

/-- RootInjector.compute (lines 118-183), fuel-indexed. -/
def computeT : Nat → St → Tok → Prov → St × Except Exn Cached
  | 0, s, _, _ => (s, .error .fuelOut)
  | n + 1, s, t, p =>
    if p.value ≠ .undefined then (s, .ok (.val p.value))
    else
      match p.factory with
      | none => (s, .error (.thrown "Provider missing value or factory"))
      | some _ =>
        let s0 := registerEdges s t p.deps
        match computeDepsT n s0 p.deps false [] with
        | (s1, .error e) => (s1, .error e)
        | (s1, .ok (.reject pid)) => (s1, .ok (.prom pid))
        | (s1, .ok (.done asy dps)) =>
          if asy then
            let (s2, q) := freshProm s1
            let gid := s2.nextG
            let s3 := { s2 with
              groups := mset s2.groups gid ⟨dps.length, t, p, q, false⟩,
              nextG := gid + 1 }
            let s4 := dps.foldl (fun s pid => attachR s pid (.allTick gid)) s3
            (s4, .ok (.prom q))
          else
            match runFactory s1 t p with
            | (s2, .fval v) => (s2, .ok (.val v))
            | (s2, .fprom f) => (s2, .ok (.prom f))
            | (s2, .fthrown e) => (s2, .error (.thrown e))

/-- The dependency-resolution loop of compute (lines 153-168). -/
def computeDepsT : Nat → St → List DepE → Bool → List Nat → St × Except Exn DepsOut
  | 0, s, _, _, _ => (s, .error .fuelOut)
  | _ + 1, s, [], asy, dps => (s, .ok (.done asy dps))
  | n + 1, s, d :: rest, asy, dps =>
    match mget s.providers d.token with
    | none =>
      if d.optional then computeDepsT n s rest asy dps
      else
        let (s1, pid) := mkRejected s "missing provider"
        (s1, .ok (.reject pid))
    | some pr =>
      match resolveT n s d.token pr with
      | (s1, .error e) => (s1, .error e)
      | (s1, .ok (.val _)) => computeDepsT n s1 rest asy dps
      | (s1, .ok (.prom pid)) => computeDepsT n s1 rest true (dps ++ [pid])

/-- RootInjector.notifyDependents (lines 194-210). -/
def notifyDepsT : Nat → St → Tok → St × Except Exn Unit
  | 0, s, _ => (s, .error .fuelOut)
  | n + 1, s, t =>
    match mget s.dependents t with
    | none => (s, .ok ())
    | some lst => notifyListT n s lst

/-- The loop body of notifyDependents over the dependent set. -/
def notifyListT : Nat → St → List Tok → St × Except Exn Unit
  | 0, s, _ => (s, .error .fuelOut)
  | _ + 1, s, [] => (s, .ok ())
  | n + 1, s, d :: rest =>
    if ((mget s.subCounts d).getD (some 0)) = some 0 then notifyListT n s rest
    else
      let s1 := delInstance s d
      match mget s1.providers d with
      | none => notifyListT n s1 rest
      | some pr =>
        match resolveT n s1 d pr with
        | (s2, .error e) => (s2, .error e)
        | (s2, .ok _) => notifyListT n s2 rest

end

/-- Process one settled `Promise.all` member (the group bookkeeping of the
`Promise.all(depPromises).then(() => runFactory())` chain of compute). -/
def runAllTick (s : St) (gid : Nat) (o : POut) : St :=
  match mget s.groups gid with
  | none => s
  | some g =>
    if g.gdone then s
    else
      match o with
      | .rejected e =>
          let s1 := { s with groups := mset s.groups gid { g with gdone := true } }
          settleP s1 g.target (.rejected e)
      | .resolved _ =>
          if g.remaining ≤ 1 then
            let s1 := { s with groups := mset s.groups gid { g with gdone := true, remaining := 0 } }
            match runFactory s1 g.gtoken g.gprov with
            | (s2, .fval v) => settleP s2 g.target (.resolved v)
            | (s2, .fthrown e) => settleP s2 g.target (.rejected e)
            | (s2, .fprom f) => attachR s2 f (.follow g.target)
          else { s with groups := mset s.groups gid { g with remaining := g.remaining - 1 } }

/-- Execute one microtask. -/
def runTask (n : Nat) (s : St) : MTask → St × Except Exn Unit
  | .settleLater pid v => (settleP s pid (.resolved v), .ok ())
  | .react r o =>
    match r with
    | .thenResolveBody t target =>
      match o with
      | .rejected e => (settleP s target (.rejected e), .ok ())
      | .resolved v =>
          let s1 := setInstance s t (.val v)
          let s2 := setValueN s1 t v true
          match notifyDepsT n s2 t with
          | (s3, .error .fuelOut) => (s3, .error .fuelOut)
          | (s3, .error (.thrown e)) => (settleP s3 target (.rejected e), .ok ())
          | (s3, .ok _) => (settleP s3 target (.resolved v), .ok ())
    | .thenDeliver t cid =>
      match o with
      | .resolved _ => (addFn s t cid false, .ok ())
      | .rejected _ => (s, .ok ())
    | .thenDeliverSub t cid =>
      match o with
      | .resolved _ => (addFn s t cid true, .ok ())
      | .rejected _ => (s, .ok ())
    | .allTick gid => (runAllTick s gid o, .ok ())
    | .follow target => (settleP s target o, .ok ())

/-- Drain the microtask queue to quiescence (fuel-bounded). -/
def drain : Nat → St → St × Except Exn Unit
  | 0, s => (s, if s.queue = [] then .ok () else .error .fuelOut)
  | n + 1, s =>
    match s.queue with
    | [] => (s, .ok ())
    | tk :: rest =>
      match runTask n { s with queue := rest } tk with
      | (s1, .error e) => (s1, .error e)
      | (s1, .ok _) => drain n s1

/-- RootInjector.invalidateToken (lines 212-223). -/
def invalidateT (n : Nat) (s : St) (t : Tok) : St × Except Exn Unit :=
  let s1 := delInstance s t
  match mget s1.providers t with
  | none => (s1, .ok ())
  | some pr =>
    if jPos ((mget s1.subCounts t).getD (some 0)) then
      match resolveT n s1 t pr with
      | (s2, .error e) => (s2, .error e)
      | (s2, .ok _) => notifyDepsT n s2 t
    else notifyDepsT n s1 t

/-- ProviderRegistry.register observed through this injector's onNew
listener (lines 40-49): locally-declared tokens are skipped; otherwise the
provider is adopted, a notifier ensured, and the token invalidated. -/
def registerT (n : Nat) (s : St) (p : Prov) : St × Except Exn Unit :=
  if p.token ∈ s.localToks then (s, .ok ())
  else
    let s1 := { s with providers := mset s.providers p.token p }
    let s2 :=
      match mget s1.notifs p.token with
      | some _ => s1
      | none => { s1 with notifs := mset s1.notifs p.token {} }
    invalidateT n s2 p.token

/-- RootInjector.handleRequest (lines 55-94) for a consumer `cid`. -/
def handleReq (n : Nat) (s : St) (t : Tok) (cid : Nat) (sub : Bool) :
    St × Except Exn Unit :=
  match mget s.providers t with
  | none => (s, .ok ())
  | some pr =>
    match resolveT n s t pr with
    | (s1, .error e) => (s1, .error e)
    | (s1, .ok r) =>
      let s2 := ensureNotif s1 t
      match r with
      | .prom pid =>
          (attachR s2 pid (if sub then .thenDeliverSub t cid else .thenDeliver t cid), .ok ())
      | .val _ => (addFn s2 t cid sub, .ok ())

/-- The dispose closure handed to subscribed callbacks (lines 74-82):
`unsub?.()` removes the callback from the notifier, then the stored count is
re-read with `!` and decremented — `undefined - 1` is NaN in JS. -/
def unsubHandle (s : St) (t : Tok) (cid : Nat) : St :=
  let s1 :=
    match mget s.notifs t with
    | none => s
    | some nf => { s with notifs := mset s.notifs t { nf with subs := nf.subs.erase cid } }
  let cnt : Option Int :=
    match mget s1.subCounts t with
    | none => none
    | some (some k) => some (k - 1)
    | some none => none
  if jLeZero cnt then { s1 with subCounts := mdel s1.subCounts t }
  else { s1 with subCounts := mset s1.subCounts t cnt }

/-- The dispose loop of disposeAll over a snapshot of the instance cache;
a throwing dispose propagates immediately, skipping the rest. -/
def disposeLoop (s : St) : List (Tok × Cached) → St × Option String
  | [] => (s, none)
  | (t, _) :: rest =>
    match mget s.providers t with
    | some pr =>
      match pr.dispose with
      | some throws =>
          let s1 := { s with disposedCt := mset s.disposedCt t (((mget s.disposedCt t).getD 0) + 1) }
          if throws then (s1, some "dispose failed") else disposeLoop s1 rest
      | none => disposeLoop s rest
    | none => disposeLoop s rest

/-- RootInjector.disposeAll (lines 226-243). -/
def disposeAllT (s : St) : St × Except Exn Unit :=
  match disposeLoop s s.instances with
  | (s1, some e) => (s1, .error (.thrown e))
  | (s1, none) =>
      ({ s1 with instances := [], notifs := [], dependents := [],
                 dependencies := [], destroyed := true }, .ok ())

/-- RootInjector's constructor (lines 26-53): snapshot the registry, then
install local providers, recording their tokens as local. -/
def mkInjector (reg locals : List Prov) : St :=
  let s1 := reg.foldl
    (fun s p => { s with providers := mset s.providers p.token p,
                         notifs := mset s.notifs p.token {} })
    ({} : St)
  locals.foldl
    (fun s p => { s with providers := mset s.providers p.token p,
                         localToks := sadd s.localToks p.token,
                         notifs := mset s.notifs p.token {} })
    s1

/-- External operations driving the injector. -/
inductive Op where
  | req (t : Tok) (cid : Nat) (sub : Bool)
  | reg (p : Prov)
  | drainOp
  | unsub (t : Tok) (cid : Nat)
  | disposeOp

def runOp (n : Nat) (s : St) : Op → St × Except Exn Unit
  | .req t cid sub => handleReq n s t cid sub
  | .reg p => registerT n s p
  | .drainOp => drain n s
  | .unsub t cid => (unsubHandle s t cid, .ok ())
  | .disposeOp => disposeAllT s

def runOps (n : Nat) (s : St) : List Op → St × Except Exn Unit
  | [] => (s, .ok ())
  | op :: rest =>
    match runOp n s op with
    | (s1, .error e) => (s1, .error e)
    | (s1, .ok _) => runOps n s1 rest

/-! ### Concrete inputs used to settle the claims -/

/-- A factory that synchronously returns `undefined`. -/
def undefFac : Fac := fun _ _ => .val .undefined

def provUndef : Prov := { token := 5, factory := some undefFac }

/-- First resolution of a token whose factory settles to `undefined`. -/
def c1StA : St × Except Exn Cached := resolveT 30 (mkInjector [provUndef] []) 5 provUndef

/-- Second resolution of the same token, after the first settled. -/
def c1StB : St × Except Exn Cached := resolveT 30 c1StA.1 5 provUndef

/-- An asynchronous factory whose promise settles with 7. -/
def laterFac : Fac := fun _ _ => .later (.int 7)

def provLater : Prov := { token := 6, factory := some laterFac }

def cLat1 : St × Except Exn Cached := resolveT 30 (mkInjector [provLater] []) 6 provLater

/-- A second resolve issued while the first computation is still pending. -/
def cLat2 : St × Except Exn Cached := resolveT 30 cLat1.1 6 provLater

/-- Settlement of the pending computation (microtask drain). -/
def cLat3 : St × Except Exn Unit := drain 30 cLat2.1

/-- A resolve issued after settlement. -/
def cLat4 : St × Except Exn Cached := resolveT 30 cLat3.1 6 provLater

/-- A factory that reads `injectSync` for its declared dependency (token 1). -/
def syncFac : Fac := fun inj _ =>
  match inj 1 with
  | .ok v => .val v
  | .error e => .thrown e

def provDep1 : Prov := { token := 1, value := .int 1 }

def provDep3 : Prov := { token := 1, value := .int 3 }

def provSync : Prov := { token := 0, deps := [{ token := 1 }], factory := some syncFac }

def c2St : St × Except Exn Cached :=
  resolveT 30 (mkInjector [provSync, provDep1] []) 0 provSync

/-- A factory computing dep + 1 from the settled cache (tok = dep + 1). -/
def depPlus1 : Fac := fun _ rd => .val (jsAdd (rd 1) (.int 1))

def provTok : Prov := { token := 0, deps := [{ token := 1 }], factory := some depPlus1 }

/-- C4 run: consumer 1 subscribes to tok (token 0), consumer 2 reads it
once, then the registry registers a new provider `dep := 3`. -/
def c4s0 : St := mkInjector [provDep1] [provTok]

def c4s1 : St × Except Exn Unit := runOp 30 c4s0 (.req 0 1 true)

def c4s2 : St × Except Exn Unit := runOp 30 c4s1.1 (.req 0 2 false)

def c4s3 : St × Except Exn Unit := runOp 30 c4s2.1 (.reg provDep3)

/-- The injector state after consumer 1 subscribed to token 0. -/
def c4lit1 : St :=
  { providers := [(1, provDep1), (0, provTok)],
    instances := [(1, .val (.int 1)), (0, .val (.int 2))],
    notifs := [(1, { nvalue := .int 1 }), (0, { nvalue := .int 2, subs := [1] })],
    dependents := [(1, [0])],
    dependencies := [(0, [1])],
    subCounts := [(0, some 1)],
    localToks := [0],
    calls := [(0, 1)],
    delivered := [(1, [.int 2])] }

/-- The state after the one-shot read by consumer 2. -/
def c4lit2 : St :=
  { c4lit1 with delivered := [(1, [.int 2]), (2, [.int 2])] }

/-- The state after `dep := 3` was registered and token 0 recomputed. -/
def c4lit3 : St :=
  { providers := [(1, provDep3), (0, provTok)],
    instances := [(1, .val (.int 3)), (0, .val (.int 4))],
    notifs := [(1, { nvalue := .int 3 }), (0, { nvalue := .int 4, subs := [1] })],
    dependents := [(1, [0])],
    dependencies := [(0, [1])],
    subCounts := [(0, some 1)],
    localToks := [0],
    calls := [(0, 3)],
    delivered := [(1, [.int 2, .int 4, .int 4]), (2, [.int 2])] }

/-- The local provider of the C5 precedence scenario (value 5). -/
def provLoc : Prov := { token := 0, value := .int 5 }

/-- A later global registration targeting the same token (value 9). -/
def provGlob : Prov := { token := 0, value := .int 9 }

/-- The shape an injector constructed with only the local provider `provLoc`
keeps through arbitrary registry registrations: nothing has resolved yet,
token 0 still maps to the local provider, is still recorded as local, and
its notifier is untouched. -/
def LocalShape (s : St) : Prop :=
  s.instances = [] ∧ s.dependents = [] ∧ s.subCounts = [] ∧ s.delivered = [] ∧
  s.localToks = [0] ∧ mget s.providers 0 = some provLoc ∧
  mget s.notifs 0 = some {}

/-- A provider declaring a required dependency on token 9, which has no
provider anywhere. -/
def provMiss : Prov := { token := 0, deps := [{ token := 9 }], factory := some (fun _ _ => .val (.int 1)) }

def c6St : St × Except Exn Cached := resolveT 30 (mkInjector [provMiss] []) 0 provMiss

/-- Factories reading tokens 1 and 2 respectively from the settled cache. -/
def readFac1 : Fac := fun _ rd => .val (rd 1)

def readFac2 : Fac := fun _ rd => .val (rd 2)

def provA7 : Prov := { token := 0, deps := [{ token := 1 }], factory := some readFac1 }

def provB7 : Prov := { token := 1, value := .int 1 }

def provC7 : Prov := { token := 2, value := .int 7 }

/-- An overwriting registration for token 0 whose deps changed to token 2. -/
def provA7n : Prov := { token := 0, deps := [{ token := 2 }], factory := some readFac2 }

/-- C7 run: subscribe to token 0 (deps [1]), then register a provider for
token 0 whose deps are [2], forcing a recompute under the new provider. -/
def c7s0 : St := mkInjector [provA7, provB7, provC7] []

def c7s1 : St × Except Exn Unit := runOp 30 c7s0 (.req 0 1 true)

def c7s2 : St × Except Exn Unit := runOp 30 c7s1.1 (.reg provA7n)

/-- The state after consumer 1 subscribed to token 0 under the old provider. -/
def c7lit1 : St :=
  { providers := [(0, provA7), (1, provB7), (2, provC7)],
    instances := [(1, .val (.int 1)), (0, .val (.int 1))],
    notifs := [(0, { nvalue := .int 1, subs := [1] }), (1, { nvalue := .int 1 }),
               (2, {})],
    dependents := [(1, [0])],
    dependencies := [(0, [1])],
    subCounts := [(0, some 1)],
    calls := [(0, 1)],
    delivered := [(1, [.int 1])] }

/-- The state after the overwriting registration recomputed token 0: the
stale edge 0 ∈ dependents[1] remains while dependencies[0] = [2]. -/
def c7lit2 : St :=
  { providers := [(0, provA7n), (1, provB7), (2, provC7)],
    instances := [(1, .val (.int 1)), (2, .val (.int 7)), (0, .val (.int 7))],
    notifs := [(0, { nvalue := .int 7, subs := [1] }), (1, { nvalue := .int 1 }),
               (2, { nvalue := .int 7 })],
    dependents := [(1, [0]), (2, [0])],
    dependencies := [(0, [2])],
    subCounts := [(0, some 1)],
    calls := [(0, 3)],
    delivered := [(1, [.int 1, .int 7, .int 7])] }

def provD1 : Prov := { token := 0, value := .int 1, dispose := some true }

def provD2 : Prov := { token := 1, value := .int 2, dispose := some false }

/-- C8 setup: two cached instances whose providers both declare dispose;
the first-inserted one throws when disposed. -/
def c8s0 : St := mkInjector [provD1, provD2] []

def c8s1 : St × Except Exn Unit := runOp 30 c8s0 (.req 0 1 false)

def c8s2 : St × Except Exn Unit := runOp 30 c8s1.1 (.req 1 2 false)

def c8s3 : St × Except Exn Unit := disposeAllT c8s2.1

/-- The state after both one-shot reads cached values 1 and 2. -/
def c8lit2 : St :=
  { providers := [(0, provD1), (1, provD2)],
    instances := [(0, .val (.int 1)), (1, .val (.int 2))],
    notifs := [(0, { nvalue := .int 1 }), (1, { nvalue := .int 2 })],
    delivered := [(1, [.int 1]), (2, [.int 2])] }

/-- The state in which disposeAll propagated the first dispose's throw. -/
def c8lit3 : St :=
  { c8lit2 with disposedCt := [(0, 1)] }

def provTen : Prov := { token := 0, value := .int 10 }

/-- C9 run: one subscriber to token 0, then its un-subscribe handle is
invoked twice. -/
def c9s0 : St := mkInjector [provTen] []

def c9s1 : St × Except Exn Unit := runOp 30 c9s0 (.req 0 1 true)

def c9s2 : St × Except Exn Unit := runOp 30 c9s1.1 (.unsub 0 1)

def c9s3 : St × Except Exn Unit := runOp 30 c9s2.1 (.unsub 0 1)

/-- The state after the subscription (count 1). -/
def c9lit1 : St :=
  { providers := [(0, provTen)],
    instances := [(0, .val (.int 10))],
    notifs := [(0, { nvalue := .int 10, subs := [1] })],
    subCounts := [(0, some 1)],
    delivered := [(1, [.int 10])] }

/-- The state after the first un-subscribe (entry deleted, floor at 0). -/
def c9lit2 : St :=
  { c9lit1 with notifs := [(0, { nvalue := .int 10 })], subCounts := [] }

/-- The state after the second un-subscribe: the count entry holds NaN. -/
def c9lit3 : St :=
  { c9lit2 with subCounts := [(0, none)] }

/-- Two providers forming a dependency cycle: token 10 requires token 11 and
token 11 requires token 10. -/
def provCycA : Prov := { token := 10, deps := [{ token := 11 }], factory := some undefFac }

def provCycB : Prov := { token := 11, deps := [{ token := 10 }], factory := some undefFac }

/-- The dependency-graph invariant as the spec states it (claim C7): the two
adjacency maps are inverses of each other. -/
def GraphIso (s : St) : Prop :=
  ∀ a b : Tok, b ∈ (mget s.dependencies a).getD [] ↔ a ∈ (mget s.dependents b).getD []

/-- The direction of the graph invariant the code actually maintains, stated
over the entries of the `dependencies` map. -/
def GraphInv (s : St) : Prop :=
  ∀ e ∈ s.dependencies, ∀ b ∈ e.2, e.1 ∈ (mget s.dependents b).getD []

instance (s : St) : Decidable (GraphInv s) :=
  decidable_of_iff
    (∀ e ∈ s.dependencies, ∀ b ∈ e.2, e.1 ∈ (mget s.dependents b).getD []) Iff.rfl

/-- The forward direction of the graph invariant in lookup form. -/
def GraphInvM (s : St) : Prop :=
  ∀ a b : Tok, b ∈ (mget s.dependencies a).getD [] → a ∈ (mget s.dependents b).getD []

/-! ### Map, set and state-field lemmas -/

theorem mget_mset_self {β : Type} (l : List (Nat × β)) (k : Nat) (v : β) :
    mget (mset l k v) k = some v := by
  induction l with
  | nil => simp [mset, mget]
  | cons h rest ih =>
    obtain ⟨k', v'⟩ := h
    by_cases hk : k' = k
    · simp [mset, hk, mget]
    · simp [mset, hk, mget, ih]

theorem mget_mset_ne {β : Type} (l : List (Nat × β)) (k k' : Nat) (v : β)
    (h : k ≠ k') : mget (mset l k v) k' = mget l k' := by
  induction l with
  | nil => simp [mset, mget, h]
  | cons hd rest ih =>
    obtain ⟨k0, v0⟩ := hd
    by_cases hk : k0 = k
    · subst hk
      simp [mset, mget, h]
    · simp [mset, hk, mget]
      split <;> simp [ih]

theorem mem_mset {β : Type} {l : List (Nat × β)} {k : Nat} {v : β} {e : Nat × β}
    (h : e ∈ mset l k v) : e = (k, v) ∨ e ∈ l := by
  induction l with
  | nil => simpa [mset] using h
  | cons hd rest ih =>
    obtain ⟨k0, v0⟩ := hd
    by_cases hk : k0 = k
    · simp [mset, hk] at h
      rcases h with h | h
      · exact .inl h
      · exact .inr (List.mem_cons_of_mem _ h)
    · simp [mset, hk] at h
      rcases h with h | h
      · exact .inr (by simp [h])
      · rcases ih h with h' | h'
        · exact .inl h'
        · exact .inr (List.mem_cons_of_mem _ h')

theorem mget_mem {β : Type} {l : List (Nat × β)} {k : Nat} {v : β}
    (h : mget l k = some v) : (k, v) ∈ l := by
  induction l with
  | nil => simp [mget] at h
  | cons hd rest ih =>
    obtain ⟨k0, v0⟩ := hd
    by_cases hk : k0 = k
    · subst hk
      simp [mget] at h
      simp [h]
    · simp [mget, hk] at h
      exact List.mem_cons_of_mem _ (ih h)

theorem mem_sadd_self (l : List Nat) (x : Nat) : x ∈ sadd l x := by
  unfold sadd
  split <;> simp_all

theorem mem_sadd_of_mem {l : List Nat} {y : Nat} (x : Nat) (h : y ∈ l) :
    y ∈ sadd l x := by
  unfold sadd
  split <;> simp_all

theorem mem_sadd {l : List Nat} {x y : Nat} (h : y ∈ sadd l x) : y = x ∨ y ∈ l := by
  unfold sadd at h
  split at h
  · exact .inr h
  · rcases List.mem_append.mp h with h1 | h1
    · exact .inr h1
    · exact .inl (by simpa using h1)

theorem instGet_congr {s s' : St} (h : s'.instances = s.instances) (t : Tok) :
    instGet s' t = instGet s t := by
  unfold instGet
  rw [h]

@[simp] theorem setInstance_providers (s : St) (t : Tok) (c : Cached) :
    (setInstance s t c).providers = s.providers := rfl

@[simp] theorem setInstance_notifs (s : St) (t : Tok) (c : Cached) :
    (setInstance s t c).notifs = s.notifs := rfl

@[simp] theorem setInstance_dependents (s : St) (t : Tok) (c : Cached) :
    (setInstance s t c).dependents = s.dependents := rfl

@[simp] theorem setInstance_dependencies (s : St) (t : Tok) (c : Cached) :
    (setInstance s t c).dependencies = s.dependencies := rfl

@[simp] theorem setInstance_subCounts (s : St) (t : Tok) (c : Cached) :
    (setInstance s t c).subCounts = s.subCounts := rfl

@[simp] theorem setInstance_localToks (s : St) (t : Tok) (c : Cached) :
    (setInstance s t c).localToks = s.localToks := rfl

@[simp] theorem setInstance_calls (s : St) (t : Tok) (c : Cached) :
    (setInstance s t c).calls = s.calls := rfl

@[simp] theorem setInstance_delivered (s : St) (t : Tok) (c : Cached) :
    (setInstance s t c).delivered = s.delivered := rfl

@[simp] theorem setInstance_queue (s : St) (t : Tok) (c : Cached) :
    (setInstance s t c).queue = s.queue := rfl

@[simp] theorem setInstance_promises (s : St) (t : Tok) (c : Cached) :
    (setInstance s t c).promises = s.promises := rfl

@[simp] theorem setInstance_nextP (s : St) (t : Tok) (c : Cached) :
    (setInstance s t c).nextP = s.nextP := rfl

@[simp] theorem delInstance_providers (s : St) (t : Tok) :
    (delInstance s t).providers = s.providers := rfl

@[simp] theorem delInstance_notifs (s : St) (t : Tok) :
    (delInstance s t).notifs = s.notifs := rfl

@[simp] theorem delInstance_dependents (s : St) (t : Tok) :
    (delInstance s t).dependents = s.dependents := rfl

@[simp] theorem delInstance_dependencies (s : St) (t : Tok) :
    (delInstance s t).dependencies = s.dependencies := rfl

@[simp] theorem delInstance_subCounts (s : St) (t : Tok) :
    (delInstance s t).subCounts = s.subCounts := rfl

@[simp] theorem delInstance_localToks (s : St) (t : Tok) :
    (delInstance s t).localToks = s.localToks := rfl

@[simp] theorem delInstance_calls (s : St) (t : Tok) :
    (delInstance s t).calls = s.calls := rfl

@[simp] theorem delInstance_delivered (s : St) (t : Tok) :
    (delInstance s t).delivered = s.delivered := rfl

@[simp] theorem delInstance_queue (s : St) (t : Tok) :
    (delInstance s t).queue = s.queue := rfl

@[simp] theorem delInstance_promises (s : St) (t : Tok) :
    (delInstance s t).promises = s.promises := rfl

@[simp] theorem delInstance_nextP (s : St) (t : Tok) :
    (delInstance s t).nextP = s.nextP := rfl

@[simp] theorem deliverTo_providers (s : St) (cid : Nat) (v : JSVal) :
    (deliverTo s cid v).providers = s.providers := rfl

@[simp] theorem deliverTo_instances (s : St) (cid : Nat) (v : JSVal) :
    (deliverTo s cid v).instances = s.instances := rfl

@[simp] theorem deliverTo_notifs (s : St) (cid : Nat) (v : JSVal) :
    (deliverTo s cid v).notifs = s.notifs := rfl

@[simp] theorem deliverTo_dependents (s : St) (cid : Nat) (v : JSVal) :
    (deliverTo s cid v).dependents = s.dependents := rfl

@[simp] theorem deliverTo_dependencies (s : St) (cid : Nat) (v : JSVal) :
    (deliverTo s cid v).dependencies = s.dependencies := rfl

@[simp] theorem deliverTo_subCounts (s : St) (cid : Nat) (v : JSVal) :
    (deliverTo s cid v).subCounts = s.subCounts := rfl

@[simp] theorem deliverTo_localToks (s : St) (cid : Nat) (v : JSVal) :
    (deliverTo s cid v).localToks = s.localToks := rfl

@[simp] theorem deliverTo_calls (s : St) (cid : Nat) (v : JSVal) :
    (deliverTo s cid v).calls = s.calls := rfl

@[simp] theorem deliverTo_queue (s : St) (cid : Nat) (v : JSVal) :
    (deliverTo s cid v).queue = s.queue := rfl

@[simp] theorem deliverTo_promises (s : St) (cid : Nat) (v : JSVal) :
    (deliverTo s cid v).promises = s.promises := rfl

@[simp] theorem deliverTo_nextP (s : St) (cid : Nat) (v : JSVal) :
    (deliverTo s cid v).nextP = s.nextP := rfl

@[simp] theorem deliverAll_providers (v : JSVal) :
    ∀ (l : List Nat) (s : St), (deliverAll s v l).providers = s.providers
  | [], _ => rfl
  | cid :: rest, s => by
    simpa [deliverAll] using deliverAll_providers v rest (deliverTo s cid v)

@[simp] theorem deliverAll_instances (v : JSVal) :
    ∀ (l : List Nat) (s : St), (deliverAll s v l).instances = s.instances
  | [], _ => rfl
  | cid :: rest, s => by
    simpa [deliverAll] using deliverAll_instances v rest (deliverTo s cid v)

@[simp] theorem deliverAll_notifs (v : JSVal) :
    ∀ (l : List Nat) (s : St), (deliverAll s v l).notifs = s.notifs
  | [], _ => rfl
  | cid :: rest, s => by
    simpa [deliverAll] using deliverAll_notifs v rest (deliverTo s cid v)

@[simp] theorem deliverAll_dependents (v : JSVal) :
    ∀ (l : List Nat) (s : St), (deliverAll s v l).dependents = s.dependents
  | [], _ => rfl
  | cid :: rest, s => by
    simpa [deliverAll] using deliverAll_dependents v rest (deliverTo s cid v)

@[simp] theorem deliverAll_dependencies (v : JSVal) :
    ∀ (l : List Nat) (s : St), (deliverAll s v l).dependencies = s.dependencies
  | [], _ => rfl
  | cid :: rest, s => by
    simpa [deliverAll] using deliverAll_dependencies v rest (deliverTo s cid v)

@[simp] theorem deliverAll_subCounts (v : JSVal) :
    ∀ (l : List Nat) (s : St), (deliverAll s v l).subCounts = s.subCounts
  | [], _ => rfl
  | cid :: rest, s => by
    simpa [deliverAll] using deliverAll_subCounts v rest (deliverTo s cid v)

@[simp] theorem deliverAll_localToks (v : JSVal) :
    ∀ (l : List Nat) (s : St), (deliverAll s v l).localToks = s.localToks
  | [], _ => rfl
  | cid :: rest, s => by
    simpa [deliverAll] using deliverAll_localToks v rest (deliverTo s cid v)

@[simp] theorem deliverAll_calls (v : JSVal) :
    ∀ (l : List Nat) (s : St), (deliverAll s v l).calls = s.calls
  | [], _ => rfl
  | cid :: rest, s => by
    simpa [deliverAll] using deliverAll_calls v rest (deliverTo s cid v)

@[simp] theorem deliverAll_queue (v : JSVal) :
    ∀ (l : List Nat) (s : St), (deliverAll s v l).queue = s.queue
  | [], _ => rfl
  | cid :: rest, s => by
    simpa [deliverAll] using deliverAll_queue v rest (deliverTo s cid v)

@[simp] theorem deliverAll_promises (v : JSVal) :
    ∀ (l : List Nat) (s : St), (deliverAll s v l).promises = s.promises
  | [], _ => rfl
  | cid :: rest, s => by
    simpa [deliverAll] using deliverAll_promises v rest (deliverTo s cid v)

@[simp] theorem deliverAll_nextP (v : JSVal) :
    ∀ (l : List Nat) (s : St), (deliverAll s v l).nextP = s.nextP
  | [], _ => rfl
  | cid :: rest, s => by
    simpa [deliverAll] using deliverAll_nextP v rest (deliverTo s cid v)

@[simp] theorem setValueN_providers (s : St) (t : Tok) (v : JSVal) (b : Bool) :
    (setValueN s t v b).providers = s.providers := by
  unfold setValueN
  dsimp only
  split <;> simp

@[simp] theorem setValueN_instances (s : St) (t : Tok) (v : JSVal) (b : Bool) :
    (setValueN s t v b).instances = s.instances := by
  unfold setValueN
  dsimp only
  split <;> simp

@[simp] theorem setValueN_dependents (s : St) (t : Tok) (v : JSVal) (b : Bool) :
    (setValueN s t v b).dependents = s.dependents := by
  unfold setValueN
  dsimp only
  split <;> simp

@[simp] theorem setValueN_dependencies (s : St) (t : Tok) (v : JSVal) (b : Bool) :
    (setValueN s t v b).dependencies = s.dependencies := by
  unfold setValueN
  dsimp only
  split <;> simp

@[simp] theorem setValueN_subCounts (s : St) (t : Tok) (v : JSVal) (b : Bool) :
    (setValueN s t v b).subCounts = s.subCounts := by
  unfold setValueN
  dsimp only
  split <;> simp

@[simp] theorem setValueN_localToks (s : St) (t : Tok) (v : JSVal) (b : Bool) :
    (setValueN s t v b).localToks = s.localToks := by
  unfold setValueN
  dsimp only
  split <;> simp

@[simp] theorem setValueN_calls (s : St) (t : Tok) (v : JSVal) (b : Bool) :
    (setValueN s t v b).calls = s.calls := by
  unfold setValueN
  dsimp only
  split <;> simp

@[simp] theorem setValueN_queue (s : St) (t : Tok) (v : JSVal) (b : Bool) :
    (setValueN s t v b).queue = s.queue := by
  unfold setValueN
  dsimp only
  split <;> simp

@[simp] theorem setValueN_promises (s : St) (t : Tok) (v : JSVal) (b : Bool) :
    (setValueN s t v b).promises = s.promises := by
  unfold setValueN
  dsimp only
  split <;> simp

@[simp] theorem setValueN_nextP (s : St) (t : Tok) (v : JSVal) (b : Bool) :
    (setValueN s t v b).nextP = s.nextP := by
  unfold setValueN
  dsimp only
  split <;> simp

@[simp] theorem ensureNotif_providers (s : St) (t : Tok) :
    (ensureNotif s t).providers = s.providers := by
  unfold ensureNotif
  split <;> rfl

@[simp] theorem ensureNotif_instances (s : St) (t : Tok) :
    (ensureNotif s t).instances = s.instances := by
  unfold ensureNotif
  split <;> rfl

@[simp] theorem ensureNotif_dependents (s : St) (t : Tok) :
    (ensureNotif s t).dependents = s.dependents := by
  unfold ensureNotif
  split <;> rfl

@[simp] theorem ensureNotif_dependencies (s : St) (t : Tok) :
    (ensureNotif s t).dependencies = s.dependencies := by
  unfold ensureNotif
  split <;> rfl

@[simp] theorem ensureNotif_subCounts (s : St) (t : Tok) :
    (ensureNotif s t).subCounts = s.subCounts := by
  unfold ensureNotif
  split <;> rfl

@[simp] theorem ensureNotif_localToks (s : St) (t : Tok) :
    (ensureNotif s t).localToks = s.localToks := by
  unfold ensureNotif
  split <;> rfl

@[simp] theorem ensureNotif_calls (s : St) (t : Tok) :
    (ensureNotif s t).calls = s.calls := by
  unfold ensureNotif
  split <;> rfl

@[simp] theorem ensureNotif_delivered (s : St) (t : Tok) :
    (ensureNotif s t).delivered = s.delivered := by
  unfold ensureNotif
  split <;> rfl

@[simp] theorem ensureNotif_queue (s : St) (t : Tok) :
    (ensureNotif s t).queue = s.queue := by
  unfold ensureNotif
  split <;> rfl

@[simp] theorem ensureNotif_promises (s : St) (t : Tok) :
    (ensureNotif s t).promises = s.promises := by
  unfold ensureNotif
  split <;> rfl

@[simp] theorem ensureNotif_nextP (s : St) (t : Tok) :
    (ensureNotif s t).nextP = s.nextP := by
  unfold ensureNotif
  split <;> rfl

@[simp] theorem addFn_providers (s : St) (t : Tok) (cid : Nat) (b : Bool) :
    (addFn s t cid b).providers = s.providers := by
  unfold addFn
  dsimp only
  split <;> simp

@[simp] theorem addFn_instances (s : St) (t : Tok) (cid : Nat) (b : Bool) :
    (addFn s t cid b).instances = s.instances := by
  unfold addFn
  dsimp only
  split <;> simp

@[simp] theorem addFn_dependents (s : St) (t : Tok) (cid : Nat) (b : Bool) :
    (addFn s t cid b).dependents = s.dependents := by
  unfold addFn
  dsimp only
  split <;> simp

@[simp] theorem addFn_dependencies (s : St) (t : Tok) (cid : Nat) (b : Bool) :
    (addFn s t cid b).dependencies = s.dependencies := by
  unfold addFn
  dsimp only
  split <;> simp

@[simp] theorem addFn_localToks (s : St) (t : Tok) (cid : Nat) (b : Bool) :
    (addFn s t cid b).localToks = s.localToks := by
  unfold addFn
  dsimp only
  split <;> simp

@[simp] theorem addFn_calls (s : St) (t : Tok) (cid : Nat) (b : Bool) :
    (addFn s t cid b).calls = s.calls := by
  unfold addFn
  dsimp only
  split <;> simp

@[simp] theorem addFn_queue (s : St) (t : Tok) (cid : Nat) (b : Bool) :
    (addFn s t cid b).queue = s.queue := by
  unfold addFn
  dsimp only
  split <;> simp

@[simp] theorem addFn_promises (s : St) (t : Tok) (cid : Nat) (b : Bool) :
    (addFn s t cid b).promises = s.promises := by
  unfold addFn
  dsimp only
  split <;> simp

@[simp] theorem addFn_nextP (s : St) (t : Tok) (cid : Nat) (b : Bool) :
    (addFn s t cid b).nextP = s.nextP := by
  unfold addFn
  dsimp only
  split <;> simp

@[simp] theorem freshProm_providers (s : St) :
    ((freshProm s).1).providers = s.providers := rfl

@[simp] theorem freshProm_instances (s : St) :
    ((freshProm s).1).instances = s.instances := rfl

@[simp] theorem freshProm_notifs (s : St) :
    ((freshProm s).1).notifs = s.notifs := rfl

@[simp] theorem freshProm_dependents (s : St) :
    ((freshProm s).1).dependents = s.dependents := rfl

@[simp] theorem freshProm_dependencies (s : St) :
    ((freshProm s).1).dependencies = s.dependencies := rfl

@[simp] theorem freshProm_subCounts (s : St) :
    ((freshProm s).1).subCounts = s.subCounts := rfl

@[simp] theorem freshProm_localToks (s : St) :
    ((freshProm s).1).localToks = s.localToks := rfl

@[simp] theorem freshProm_calls (s : St) :
    ((freshProm s).1).calls = s.calls := rfl

@[simp] theorem freshProm_delivered (s : St) :
    ((freshProm s).1).delivered = s.delivered := rfl

@[simp] theorem freshProm_queue (s : St) :
    ((freshProm s).1).queue = s.queue := rfl

@[simp] theorem mkRejected_providers (s : St) (m : String) :
    ((mkRejected s m).1).providers = s.providers := rfl

@[simp] theorem mkRejected_instances (s : St) (m : String) :
    ((mkRejected s m).1).instances = s.instances := rfl

@[simp] theorem mkRejected_notifs (s : St) (m : String) :
    ((mkRejected s m).1).notifs = s.notifs := rfl

@[simp] theorem mkRejected_dependents (s : St) (m : String) :
    ((mkRejected s m).1).dependents = s.dependents := rfl

@[simp] theorem mkRejected_dependencies (s : St) (m : String) :
    ((mkRejected s m).1).dependencies = s.dependencies := rfl

@[simp] theorem mkRejected_subCounts (s : St) (m : String) :
    ((mkRejected s m).1).subCounts = s.subCounts := rfl

@[simp] theorem mkRejected_localToks (s : St) (m : String) :
    ((mkRejected s m).1).localToks = s.localToks := rfl

@[simp] theorem mkRejected_calls (s : St) (m : String) :
    ((mkRejected s m).1).calls = s.calls := rfl

@[simp] theorem mkRejected_delivered (s : St) (m : String) :
    ((mkRejected s m).1).delivered = s.delivered := rfl

@[simp] theorem mkRejected_queue (s : St) (m : String) :
    ((mkRejected s m).1).queue = s.queue := rfl

@[simp] theorem settleP_providers (s : St) (pid : Nat) (o : POut) :
    (settleP s pid o).providers = s.providers := by
  unfold settleP
  split
  · rfl
  · split <;> rfl

@[simp] theorem settleP_instances (s : St) (pid : Nat) (o : POut) :
    (settleP s pid o).instances = s.instances := by
  unfold settleP
  split
  · rfl
  · split <;> rfl

@[simp] theorem settleP_notifs (s : St) (pid : Nat) (o : POut) :
    (settleP s pid o).notifs = s.notifs := by
  unfold settleP
  split
  · rfl
  · split <;> rfl

@[simp] theorem settleP_dependents (s : St) (pid : Nat) (o : POut) :
    (settleP s pid o).dependents = s.dependents := by
  unfold settleP
  split
  · rfl
  · split <;> rfl

@[simp] theorem settleP_dependencies (s : St) (pid : Nat) (o : POut) :
    (settleP s pid o).dependencies = s.dependencies := by
  unfold settleP
  split
  · rfl
  · split <;> rfl

@[simp] theorem settleP_subCounts (s : St) (pid : Nat) (o : POut) :
    (settleP s pid o).subCounts = s.subCounts := by
  unfold settleP
  split
  · rfl
  · split <;> rfl

@[simp] theorem settleP_localToks (s : St) (pid : Nat) (o : POut) :
    (settleP s pid o).localToks = s.localToks := by
  unfold settleP
  split
  · rfl
  · split <;> rfl

@[simp] theorem settleP_calls (s : St) (pid : Nat) (o : POut) :
    (settleP s pid o).calls = s.calls := by
  unfold settleP
  split
  · rfl
  · split <;> rfl

@[simp] theorem settleP_delivered (s : St) (pid : Nat) (o : POut) :
    (settleP s pid o).delivered = s.delivered := by
  unfold settleP
  split
  · rfl
  · split <;> rfl

@[simp] theorem settleP_nextP (s : St) (pid : Nat) (o : POut) :
    (settleP s pid o).nextP = s.nextP := by
  unfold settleP
  split
  · rfl
  · split <;> rfl

@[simp] theorem attachR_providers (s : St) (pid : Nat) (r : Reaction) :
    (attachR s pid r).providers = s.providers := by
  unfold attachR
  split
  · rfl
  · split <;> rfl

@[simp] theorem attachR_instances (s : St) (pid : Nat) (r : Reaction) :
    (attachR s pid r).instances = s.instances := by
  unfold attachR
  split
  · rfl
  · split <;> rfl

@[simp] theorem attachR_notifs (s : St) (pid : Nat) (r : Reaction) :
    (attachR s pid r).notifs = s.notifs := by
  unfold attachR
  split
  · rfl
  · split <;> rfl

@[simp] theorem attachR_dependents (s : St) (pid : Nat) (r : Reaction) :
    (attachR s pid r).dependents = s.dependents := by
  unfold attachR
  split
  · rfl
  · split <;> rfl

@[simp] theorem attachR_dependencies (s : St) (pid : Nat) (r : Reaction) :
    (attachR s pid r).dependencies = s.dependencies := by
  unfold attachR
  split
  · rfl
  · split <;> rfl

@[simp] theorem attachR_subCounts (s : St) (pid : Nat) (r : Reaction) :
    (attachR s pid r).subCounts = s.subCounts := by
  unfold attachR
  split
  · rfl
  · split <;> rfl

@[simp] theorem attachR_localToks (s : St) (pid : Nat) (r : Reaction) :
    (attachR s pid r).localToks = s.localToks := by
  unfold attachR
  split
  · rfl
  · split <;> rfl

@[simp] theorem attachR_calls (s : St) (pid : Nat) (r : Reaction) :
    (attachR s pid r).calls = s.calls := by
  unfold attachR
  split
  · rfl
  · split <;> rfl

@[simp] theorem attachR_delivered (s : St) (pid : Nat) (r : Reaction) :
    (attachR s pid r).delivered = s.delivered := by
  unfold attachR
  split
  · rfl
  · split <;> rfl

@[simp] theorem attachR_nextP (s : St) (pid : Nat) (r : Reaction) :
    (attachR s pid r).nextP = s.nextP := by
  unfold attachR
  split
  · rfl
  · split <;> rfl

@[simp] theorem addDepEdge_providers (s : St) (t d : Tok) :
    (addDepEdge s t d).providers = s.providers := rfl

@[simp] theorem addDepEdge_instances (s : St) (t d : Tok) :
    (addDepEdge s t d).instances = s.instances := rfl

@[simp] theorem addDepEdge_notifs (s : St) (t d : Tok) :
    (addDepEdge s t d).notifs = s.notifs := rfl

@[simp] theorem addDepEdge_dependencies (s : St) (t d : Tok) :
    (addDepEdge s t d).dependencies = s.dependencies := rfl

@[simp] theorem addDepEdge_subCounts (s : St) (t d : Tok) :
    (addDepEdge s t d).subCounts = s.subCounts := rfl

@[simp] theorem addDepEdge_localToks (s : St) (t d : Tok) :
    (addDepEdge s t d).localToks = s.localToks := rfl

@[simp] theorem addDepEdge_calls (s : St) (t d : Tok) :
    (addDepEdge s t d).calls = s.calls := rfl

@[simp] theorem addDepEdge_delivered (s : St) (t d : Tok) :
    (addDepEdge s t d).delivered = s.delivered := rfl

@[simp] theorem addDepEdge_queue (s : St) (t d : Tok) :
    (addDepEdge s t d).queue = s.queue := rfl

@[simp] theorem addDepEdge_promises (s : St) (t d : Tok) :
    (addDepEdge s t d).promises = s.promises := rfl

@[simp] theorem addDepEdge_nextP (s : St) (t d : Tok) :
    (addDepEdge s t d).nextP = s.nextP := rfl

@[simp] theorem runFactory_providers (s : St) (t : Tok) (p : Prov) :
    (runFactory s t p).1.providers = s.providers := by
  unfold runFactory
  dsimp only
  split
  · rfl
  · split <;> simp [freshProm]

@[simp] theorem runFactory_instances (s : St) (t : Tok) (p : Prov) :
    (runFactory s t p).1.instances = s.instances := by
  unfold runFactory
  dsimp only
  split
  · rfl
  · split <;> simp [freshProm]

@[simp] theorem runFactory_notifs (s : St) (t : Tok) (p : Prov) :
    (runFactory s t p).1.notifs = s.notifs := by
  unfold runFactory
  dsimp only
  split
  · rfl
  · split <;> simp [freshProm]

@[simp] theorem runFactory_dependents (s : St) (t : Tok) (p : Prov) :
    (runFactory s t p).1.dependents = s.dependents := by
  unfold runFactory
  dsimp only
  split
  · rfl
  · split <;> simp [freshProm]

@[simp] theorem runFactory_dependencies (s : St) (t : Tok) (p : Prov) :
    (runFactory s t p).1.dependencies = s.dependencies := by
  unfold runFactory
  dsimp only
  split
  · rfl
  · split <;> simp [freshProm]

@[simp] theorem runFactory_subCounts (s : St) (t : Tok) (p : Prov) :
    (runFactory s t p).1.subCounts = s.subCounts := by
  unfold runFactory
  dsimp only
  split
  · rfl
  · split <;> simp [freshProm]

@[simp] theorem runFactory_localToks (s : St) (t : Tok) (p : Prov) :
    (runFactory s t p).1.localToks = s.localToks := by
  unfold runFactory
  dsimp only
  split
  · rfl
  · split <;> simp [freshProm]

@[simp] theorem runFactory_delivered (s : St) (t : Tok) (p : Prov) :
    (runFactory s t p).1.delivered = s.delivered := by
  unfold runFactory
  dsimp only
  split
  · rfl
  · split <;> simp [freshProm]

@[simp] theorem edgeFold_providers (t : Tok) :
    ∀ (deps : List DepE) (s : St),
      (deps.foldl (fun s d => addDepEdge s t d.token) s).providers = s.providers
  | [], _ => rfl
  | d :: rest, s => by
    simpa using edgeFold_providers t rest (addDepEdge s t d.token)

@[simp] theorem edgeFold_instances (t : Tok) :
    ∀ (deps : List DepE) (s : St),
      (deps.foldl (fun s d => addDepEdge s t d.token) s).instances = s.instances
  | [], _ => rfl
  | d :: rest, s => by
    simpa using edgeFold_instances t rest (addDepEdge s t d.token)

@[simp] theorem edgeFold_notifs (t : Tok) :
    ∀ (deps : List DepE) (s : St),
      (deps.foldl (fun s d => addDepEdge s t d.token) s).notifs = s.notifs
  | [], _ => rfl
  | d :: rest, s => by
    simpa using edgeFold_notifs t rest (addDepEdge s t d.token)

@[simp] theorem edgeFold_dependencies (t : Tok) :
    ∀ (deps : List DepE) (s : St),
      (deps.foldl (fun s d => addDepEdge s t d.token) s).dependencies = s.dependencies
  | [], _ => rfl
  | d :: rest, s => by
    simpa using edgeFold_dependencies t rest (addDepEdge s t d.token)

@[simp] theorem edgeFold_subCounts (t : Tok) :
    ∀ (deps : List DepE) (s : St),
      (deps.foldl (fun s d => addDepEdge s t d.token) s).subCounts = s.subCounts
  | [], _ => rfl
  | d :: rest, s => by
    simpa using edgeFold_subCounts t rest (addDepEdge s t d.token)

@[simp] theorem edgeFold_localToks (t : Tok) :
    ∀ (deps : List DepE) (s : St),
      (deps.foldl (fun s d => addDepEdge s t d.token) s).localToks = s.localToks
  | [], _ => rfl
  | d :: rest, s => by
    simpa using edgeFold_localToks t rest (addDepEdge s t d.token)

@[simp] theorem edgeFold_calls (t : Tok) :
    ∀ (deps : List DepE) (s : St),
      (deps.foldl (fun s d => addDepEdge s t d.token) s).calls = s.calls
  | [], _ => rfl
  | d :: rest, s => by
    simpa using edgeFold_calls t rest (addDepEdge s t d.token)

@[simp] theorem edgeFold_delivered (t : Tok) :
    ∀ (deps : List DepE) (s : St),
      (deps.foldl (fun s d => addDepEdge s t d.token) s).delivered = s.delivered
  | [], _ => rfl
  | d :: rest, s => by
    simpa using edgeFold_delivered t rest (addDepEdge s t d.token)

@[simp] theorem edgeFold_queue (t : Tok) :
    ∀ (deps : List DepE) (s : St),
      (deps.foldl (fun s d => addDepEdge s t d.token) s).queue = s.queue
  | [], _ => rfl
  | d :: rest, s => by
    simpa using edgeFold_queue t rest (addDepEdge s t d.token)

@[simp] theorem edgeFold_promises (t : Tok) :
    ∀ (deps : List DepE) (s : St),
      (deps.foldl (fun s d => addDepEdge s t d.token) s).promises = s.promises
  | [], _ => rfl
  | d :: rest, s => by
    simpa using edgeFold_promises t rest (addDepEdge s t d.token)

@[simp] theorem edgeFold_nextP (t : Tok) :
    ∀ (deps : List DepE) (s : St),
      (deps.foldl (fun s d => addDepEdge s t d.token) s).nextP = s.nextP
  | [], _ => rfl
  | d :: rest, s => by
    simpa using edgeFold_nextP t rest (addDepEdge s t d.token)

@[simp] theorem registerEdges_providers (s : St) (t : Tok) (deps : List DepE) :
    (registerEdges s t deps).providers = s.providers := by
  unfold registerEdges
  simp

@[simp] theorem registerEdges_instances (s : St) (t : Tok) (deps : List DepE) :
    (registerEdges s t deps).instances = s.instances := by
  unfold registerEdges
  simp

@[simp] theorem registerEdges_notifs (s : St) (t : Tok) (deps : List DepE) :
    (registerEdges s t deps).notifs = s.notifs := by
  unfold registerEdges
  simp

@[simp] theorem registerEdges_subCounts (s : St) (t : Tok) (deps : List DepE) :
    (registerEdges s t deps).subCounts = s.subCounts := by
  unfold registerEdges
  simp

@[simp] theorem registerEdges_localToks (s : St) (t : Tok) (deps : List DepE) :
    (registerEdges s t deps).localToks = s.localToks := by
  unfold registerEdges
  simp

@[simp] theorem registerEdges_calls (s : St) (t : Tok) (deps : List DepE) :
    (registerEdges s t deps).calls = s.calls := by
  unfold registerEdges
  simp

@[simp] theorem registerEdges_delivered (s : St) (t : Tok) (deps : List DepE) :
    (registerEdges s t deps).delivered = s.delivered := by
  unfold registerEdges
  simp

@[simp] theorem registerEdges_queue (s : St) (t : Tok) (deps : List DepE) :
    (registerEdges s t deps).queue = s.queue := by
  unfold registerEdges
  simp

@[simp] theorem registerEdges_promises (s : St) (t : Tok) (deps : List DepE) :
    (registerEdges s t deps).promises = s.promises := by
  unfold registerEdges
  simp

@[simp] theorem registerEdges_nextP (s : St) (t : Tok) (deps : List DepE) :
    (registerEdges s t deps).nextP = s.nextP := by
  unfold registerEdges
  simp

@[simp] theorem attachFold_providers (gid : Nat) :
    ∀ (dps : List Nat) (s : St),
      (dps.foldl (fun s pid => attachR s pid (.allTick gid)) s).providers = s.providers
  | [], _ => rfl
  | pid :: rest, s => by
    simpa using attachFold_providers gid rest (attachR s pid (.allTick gid))

@[simp] theorem attachFold_instances (gid : Nat) :
    ∀ (dps : List Nat) (s : St),
      (dps.foldl (fun s pid => attachR s pid (.allTick gid)) s).instances = s.instances
  | [], _ => rfl
  | pid :: rest, s => by
    simpa using attachFold_instances gid rest (attachR s pid (.allTick gid))

@[simp] theorem attachFold_notifs (gid : Nat) :
    ∀ (dps : List Nat) (s : St),
      (dps.foldl (fun s pid => attachR s pid (.allTick gid)) s).notifs = s.notifs
  | [], _ => rfl
  | pid :: rest, s => by
    simpa using attachFold_notifs gid rest (attachR s pid (.allTick gid))

@[simp] theorem attachFold_dependents (gid : Nat) :
    ∀ (dps : List Nat) (s : St),
      (dps.foldl (fun s pid => attachR s pid (.allTick gid)) s).dependents = s.dependents
  | [], _ => rfl
  | pid :: rest, s => by
    simpa using attachFold_dependents gid rest (attachR s pid (.allTick gid))

@[simp] theorem attachFold_dependencies (gid : Nat) :
    ∀ (dps : List Nat) (s : St),
      (dps.foldl (fun s pid => attachR s pid (.allTick gid)) s).dependencies = s.dependencies
  | [], _ => rfl
  | pid :: rest, s => by
    simpa using attachFold_dependencies gid rest (attachR s pid (.allTick gid))

@[simp] theorem attachFold_subCounts (gid : Nat) :
    ∀ (dps : List Nat) (s : St),
      (dps.foldl (fun s pid => attachR s pid (.allTick gid)) s).subCounts = s.subCounts
  | [], _ => rfl
  | pid :: rest, s => by
    simpa using attachFold_subCounts gid rest (attachR s pid (.allTick gid))

@[simp] theorem attachFold_localToks (gid : Nat) :
    ∀ (dps : List Nat) (s : St),
      (dps.foldl (fun s pid => attachR s pid (.allTick gid)) s).localToks = s.localToks
  | [], _ => rfl
  | pid :: rest, s => by
    simpa using attachFold_localToks gid rest (attachR s pid (.allTick gid))

@[simp] theorem attachFold_calls (gid : Nat) :
    ∀ (dps : List Nat) (s : St),
      (dps.foldl (fun s pid => attachR s pid (.allTick gid)) s).calls = s.calls
  | [], _ => rfl
  | pid :: rest, s => by
    simpa using attachFold_calls gid rest (attachR s pid (.allTick gid))

@[simp] theorem attachFold_delivered (gid : Nat) :
    ∀ (dps : List Nat) (s : St),
      (dps.foldl (fun s pid => attachR s pid (.allTick gid)) s).delivered = s.delivered
  | [], _ => rfl
  | pid :: rest, s => by
    simpa using attachFold_delivered gid rest (attachR s pid (.allTick gid))

@[simp] theorem attachFold_nextP (gid : Nat) :
    ∀ (dps : List Nat) (s : St),
      (dps.foldl (fun s pid => attachR s pid (.allTick gid)) s).nextP = s.nextP
  | [], _ => rfl
  | pid :: rest, s => by
    simpa using attachFold_nextP gid rest (attachR s pid (.allTick gid))

/-! ### Graph-invariant lemmas -/

theorem graphInv_of_eq {s s' : St} (h1 : s'.dependencies = s.dependencies)
    (h2 : s'.dependents = s.dependents) (h : GraphInv s) : GraphInv s' := by
  unfold GraphInv at *
  rw [h1, h2]
  exact h

theorem graphInv_empty {s : St} (h : s.dependencies = []) : GraphInv s := by
  unfold GraphInv
  rw [h]
  simp

/-- Dependent-set entries only grow along the edge-registration fold. -/
theorem edgeFold_dependents_mono (t : Tok) :
    ∀ (deps : List DepE) (s : St) (x b : Nat),
      x ∈ (mget s.dependents b).getD [] →
      x ∈ (mget ((deps.foldl (fun s d => addDepEdge s t d.token) s)).dependents b).getD []
  | [], _, _, _, h => h
  | d :: rest, s, x, b, h => by
    simp only [List.foldl]
    refine edgeFold_dependents_mono t rest _ x b ?_
    unfold addDepEdge
    by_cases hb : d.token = b
    · subst hb
      simp only [mget_mset_self, Option.getD_some]
      exact mem_sadd_of_mem t h
    · simpa [mget_mset_ne _ _ _ _ hb] using h

/-- After the fold, every declared dep token's dependent set contains `t`. -/
theorem edgeFold_edge_added (t : Tok) :
    ∀ (deps : List DepE) (s : St) (b : Nat),
      (∃ d ∈ deps, d.token = b) →
      t ∈ (mget ((deps.foldl (fun s d => addDepEdge s t d.token) s)).dependents b).getD []
  | [], _, _, h => by simp at h
  | d :: rest, s, b, h => by
    simp only [List.foldl]
    rcases h with ⟨d', hd', htok⟩
    rcases List.mem_cons.mp hd' with rfl | hmem
    · refine edgeFold_dependents_mono t rest _ t b ?_
      unfold addDepEdge
      subst htok
      simp only [mget_mset_self, Option.getD_some]
      exact mem_sadd_self _ t
    · exact edgeFold_edge_added t rest _ b ⟨d', hmem, htok⟩

/-- Membership in the folded dep-token set implies a declaring dep. -/
theorem depToksFold_mem :
    ∀ (deps : List DepE) (acc : List Nat) (b : Nat),
      b ∈ deps.foldl (fun acc d => sadd acc d.token) acc →
      b ∈ acc ∨ ∃ d ∈ deps, d.token = b
  | [], acc, b, h => .inl h
  | d :: rest, acc, b, h => by
    simp only [List.foldl] at h
    rcases depToksFold_mem rest _ b h with h' | h'
    · rcases mem_sadd h' with rfl | h''
      · exact .inr ⟨d, by simp, rfl⟩
      · exact .inl h''
    · rcases h' with ⟨d', hd', htok⟩
      exact .inr ⟨d', by simp [hd'], htok⟩

theorem registerEdges_graphInv {s : St} (t : Tok) (deps : List DepE)
    (h : GraphInv s) : GraphInv (registerEdges s t deps) := by
  unfold registerEdges GraphInv
  dsimp only
  intro e he b hb
  rcases mem_mset he with rfl | he'
  · refine edgeFold_edge_added t deps s b ?_
    rcases depToksFold_mem deps [] b hb with h0 | h0
    · simp at h0
    · exact h0
  · have hdepeq := edgeFold_dependencies t deps s
    exact edgeFold_dependents_mono t deps s e.1 b (h e (hdepeq ▸ he') b hb)

/-! ### Theorems -/

/-- Evaluation of the C4 run, one external operation at a time. -/
theorem c4_step1 : c4s1 = (c4lit1, .ok ()) := by rfl

theorem c4_step2 : c4s2 = (c4lit2, .ok ()) := by
  show runOp 30 c4s1.1 (.req 0 2 false) = _
  rw [c4_step1]
  rfl

theorem c4_step3 : c4s3 = (c4lit3, .ok ()) := by
  show runOp 30 c4s2.1 (.reg provDep3) = _
  rw [c4_step2]
  rfl

/-- Evaluation of the C7 run, one external operation at a time. -/
theorem c7_step1 : c7s1 = (c7lit1, .ok ()) := by rfl

theorem c7_step2 : c7s2 = (c7lit2, .ok ()) := by
  show runOp 30 c7s1.1 (.reg provA7n) = _
  rw [c7_step1]
  rfl

/-- Evaluation of the C8 run. -/
theorem c8_step2 : c8s2 = (c8lit2, .ok ()) := by rfl

theorem c8_step3 : c8s3 = (c8lit3, .error (.thrown "dispose failed")) := by
  show disposeAllT c8s2.1 = _
  rw [c8_step2]
  rfl

/-- Evaluation of the C9 run. -/
theorem c9_step2 : c9s2 = (c9lit2, .ok ()) := by rfl

theorem c9_step3 : c9s3 = (c9lit3, .ok ()) := by
  show runOp 30 c9s2.1 (.unsub 0 1) = _
  rw [c9_step2]
  rfl

set_option maxHeartbeats 2000000 in
/-- C1 counterexample: a factory whose computation settles to `undefined`.
The first resolution settles (returns the value `undefined`) after exactly
one factory invocation, yet a second resolve with no intervening
invalidation invokes the factory again (call count 2), because the
`cached !== undefined` check treats the settled entry as a cache miss. -/
theorem c1_counterexample :
    c1StA.2 = .ok (.val .undefined) ∧
    mget c1StA.1.calls 5 = some 1 ∧
    mget c1StB.1.calls 5 = some 2 := by
  refine ⟨by decide, by decide, by decide⟩

set_option maxHeartbeats 2000000 in
/-- C1 (amended): resolution is single-flight and cached provided the cache
entry is not the value `undefined`: any resolve that finds a cached entry
(the shared in-flight promise before settlement, or the settled value
afterwards) returns exactly that entry and leaves the state — including the
factory invocation counter — untouched.  The conjuncts instantiate this on
an asynchronous factory: a second resolve before settlement returns the same
promise with one factory call, and a resolve after settlement returns the
settled value 7, still with exactly one factory call. -/
theorem c1_single_flight_cache :
    (∀ (n : Nat) (s : St) (t : Tok) (p : Prov) (c : Cached),
      instGet s t = some c → resolveT (n + 1) s t p = (s, .ok c)) ∧
    cLat1.2 = .ok (.prom 1) ∧
    cLat2.2 = .ok (.prom 1) ∧
    mget cLat2.1.calls 6 = some 1 ∧
    mget cLat3.1.instances 6 = some (.val (.int 7)) ∧
    cLat4.2 = .ok (.val (.int 7)) ∧
    mget cLat4.1.calls 6 = some 1 := by
  refine ⟨?_, by decide, by decide, by decide, by decide, by decide, by decide⟩
  intro n s t p c h
  simp [resolveT, h]

set_option maxHeartbeats 2000000 in
/-- C1 witness: the single-flight theorem applied to the concrete pending
state of the asynchronous scenario — the second resolve returns the shared
in-flight promise and changes nothing. -/
theorem c1_witness : resolveT 30 cLat1.1 6 provLater = (cLat1.1, .ok (.prom 1)) :=
  c1_single_flight_cache.1 29 cLat1.1 6 provLater (.prom 1) (by decide)

set_option maxHeartbeats 2000000 in
/-- C2: the `injectSync` helper handed to every factory throws
unconditionally ('injectSync not implemented').  In the concrete run the
dependency (token 1) is declared in the provider's deps and already resolved
to 1 at call time, yet `injectSync` does not return that value — the whole
resolution fails synchronously with the not-implemented error. -/
theorem c2_injectsync_not_implemented :
    (∀ t : Tok, injectSyncH t = .error "injectSync not implemented") ∧
    mget c2St.1.instances 1 = some (.val (.int 1)) ∧
    c2St.2 = .error (.thrown "injectSync not implemented") :=
  ⟨fun _ => rfl, by decide, by decide⟩

/-- C4: after the registry registers `dep := 3`, the injector adopts the
provider, evicts the cache and recomputes: the subscribed consumer (cid 1)
observes the recomputed value 4, while the one-shot consumer (cid 2) keeps
its single snapshot [2] and receives no further deliveries; the cache ends
at 4 and the dep's cache at 3. -/
theorem c4_reactive_update :
    c4s3.2 = .ok () ∧
    mget c4s3.1.delivered 1 = some [.int 2, .int 4, .int 4] ∧
    mget c4s3.1.delivered 2 = some [.int 2] ∧
    mget c4s3.1.instances 0 = some (.val (.int 4)) ∧
    mget c4s3.1.instances 1 = some (.val (.int 3)) := by
  rw [c4_step3]
  refine ⟨rfl, by decide, by decide, by decide, by decide⟩

/-- C7 counterexample: after token 0's provider (deps [1]) is overwritten by
a registration whose deps are [2] and recomputed, the state still has
0 ∈ dependents[1] but 1 ∉ dependencies[0]: the two maps are not inverses. -/
theorem c7_counterexample : ¬ GraphIso c7s2.1 := by
  rw [c7_step2]
  intro h
  exact absurd ((h 0 1).mpr (by decide)) (by decide)

/-- C8: dispose invocations are not isolated: the first cached instance's
dispose throws, the loop propagates the exception, the second provider's
dispose never runs, and the remaining teardown (cache clear, notifier clear,
graph clear, DestroyRef destroy) is skipped. -/
theorem c8_dispose_not_isolated :
    c8s3.2 = .error (.thrown "dispose failed") ∧
    mget c8s3.1.disposedCt 0 = some 1 ∧
    mget c8s3.1.disposedCt 1 = none ∧
    c8s3.1.instances = [(0, .val (.int 1)), (1, .val (.int 2))] ∧
    c8s3.1.notifs ≠ [] ∧
    c8s3.1.destroyed = false := by
  rw [c8_step3]
  refine ⟨rfl, by decide, by decide, by decide, by decide, by decide⟩

/-- C9: the first invocation of the un-subscribe handle deletes the count
entry (floor at 0), but a second invocation reads the missing entry with
`!`, computes `undefined - 1 = NaN` (which is not `<= 0`), and stores NaN as
the token's subscriber count — not a non-negative integer. -/
theorem c9_unsub_stores_nan :
    mget c9s2.1.subCounts 0 = none ∧
    mget c9s3.1.subCounts 0 = some none := by
  rw [c9_step2, c9_step3]
  refine ⟨by decide, by decide⟩

theorem instGet_registerEdges (s : St) (t : Tok) (deps : List DepE) (x : Tok) :
    instGet (registerEdges s t deps) x = instGet s x :=
  instGet_congr (registerEdges_instances s t deps) x

/-- C3: with a two-token dependency cycle and both tokens uncached, resolve
recurses forever: for every fuel bound the run ends in fuel exhaustion (the
model of unbounded recursion), never in a value and never in a
cycle-identifying error. -/
theorem c3_cycle_diverges (x y : Tok) (px py : Prov) (ox oy : Bool)
    (hvx : px.value = .undefined) (hfx : px.factory.isSome = true)
    (hdx : px.deps = [{ token := y, optional := ox }])
    (hvy : py.value = .undefined) (hfy : py.factory.isSome = true)
    (hdy : py.deps = [{ token := x, optional := oy }]) :
    ∀ (n : Nat) (s : St), instGet s x = none → instGet s y = none →
      mget s.providers x = some px → mget s.providers y = some py →
      (resolveT n s x px).2 = .error .fuelOut ∧
      (resolveT n s y py).2 = .error .fuelOut := by
  intro n
  induction n using Nat.strong_induction_on with
  | _ n ih =>
    match n, ih with
    | 0, _ =>
      intro s h1 h2 h3 h4
      exact ⟨rfl, rfl⟩
    | 1, _ =>
      intro s h1 h2 h3 h4
      constructor
      · simp only [resolveT, h1, computeT]
      · simp only [resolveT, h2, computeT]
    | 2, _ =>
      intro s h1 h2 h3 h4
      obtain ⟨fx, hfx1⟩ := Option.isSome_iff_exists.mp hfx
      obtain ⟨fy, hfy1⟩ := Option.isSome_iff_exists.mp hfy
      constructor
      · simp [resolveT, h1, computeT, hvx, hfx1, hdx, computeDepsT]
      · simp [resolveT, h2, computeT, hvy, hfy1, hdy, computeDepsT]
    | (m+3), ih =>
      intro s h1 h2 h3 h4
      obtain ⟨fx, hfx1⟩ := Option.isSome_iff_exists.mp hfx
      obtain ⟨fy, hfy1⟩ := Option.isSome_iff_exists.mp hfy
      constructor
      · have hIH := (ih m (by omega) (registerEdges s x [{ token := y, optional := ox }])
          (by rw [instGet_registerEdges]; exact h1)
          (by rw [instGet_registerEdges]; exact h2)
          (by rw [registerEdges_providers]; exact h3)
          (by rw [registerEdges_providers]; exact h4)).2
        rcases hres : resolveT m (registerEdges s x [{ token := y, optional := ox }]) y py with ⟨s1, r⟩
        rw [hres] at hIH
        simp only at hIH
        subst hIH
        simp [resolveT, h1, computeT, hvx, hfx1, hdx, computeDepsT, h4, hres]
      · have hIH := (ih m (by omega) (registerEdges s y [{ token := x, optional := oy }])
          (by rw [instGet_registerEdges]; exact h1)
          (by rw [instGet_registerEdges]; exact h2)
          (by rw [registerEdges_providers]; exact h3)
          (by rw [registerEdges_providers]; exact h4)).1
        rcases hres : resolveT m (registerEdges s y [{ token := x, optional := oy }]) x px with ⟨s1, r⟩
        rw [hres] at hIH
        simp only at hIH
        subst hIH
        simp [resolveT, h2, computeT, hvy, hfy1, hdy, computeDepsT, h3, hres]

/-- C3 witness: the divergence theorem applied to the concrete cycle
providers (tokens 10 and 11) at fuel 9 from a freshly constructed injector. -/
theorem c3_witness :
    (resolveT 9 (mkInjector [provCycA, provCycB] []) 10 provCycA).2 = .error .fuelOut ∧
    (resolveT 9 (mkInjector [provCycA, provCycB] []) 11 provCycB).2 = .error .fuelOut :=
  c3_cycle_diverges 10 11 provCycA provCycB false false rfl rfl rfl rfl rfl rfl 9
    (mkInjector [provCycA, provCycB] []) rfl rfl rfl rfl

/-- Providers-table and graph-invariant preservation for the mutually
recursive resolution cluster, by induction on fuel. -/
theorem clusterPres : ∀ (n : Nat),
    (∀ s t p, ((resolveT n s t p).1.providers = s.providers) ∧
      (GraphInv s → GraphInv (resolveT n s t p).1)) ∧
    (∀ s t p, ((computeT n s t p).1.providers = s.providers) ∧
      (GraphInv s → GraphInv (computeT n s t p).1)) ∧
    (∀ s ds a l, ((computeDepsT n s ds a l).1.providers = s.providers) ∧
      (GraphInv s → GraphInv (computeDepsT n s ds a l).1)) ∧
    (∀ s t, ((notifyDepsT n s t).1.providers = s.providers) ∧
      (GraphInv s → GraphInv (notifyDepsT n s t).1)) ∧
    (∀ s l, ((notifyListT n s l).1.providers = s.providers) ∧
      (GraphInv s → GraphInv (notifyListT n s l).1)) := by
  intro n
  induction n with
  | zero =>
    exact ⟨fun s t p => ⟨rfl, fun h => h⟩, fun s t p => ⟨rfl, fun h => h⟩,
      fun s ds a l => ⟨rfl, fun h => h⟩, fun s t => ⟨rfl, fun h => h⟩,
      fun s l => ⟨rfl, fun h => h⟩⟩
  | succ n ih =>
    obtain ⟨ihR, ihC, ihD, ihN, ihL⟩ := ih
    refine ⟨fun s t p => ?_, fun s t p => ?_, fun s ds a l => ?_, fun s t => ?_,
      fun s l => ?_⟩
    · -- resolveT
      cases hg : instGet s t with
      | some c => exact ⟨by simp [resolveT, hg], fun h => by simpa [resolveT, hg] using h⟩
      | none =>
        rcases hc : computeT n s t p with ⟨s1, r⟩
        have hc1 := (ihC s t p).1
        have hc2 := (ihC s t p).2
        rw [hc] at hc1 hc2
        simp only at hc1 hc2
        cases r with
        | error e =>
          exact ⟨by simp [resolveT, hg, hc, hc1], fun h => by simp [resolveT, hg, hc]; exact hc2 h⟩
        | ok c =>
          cases c with
          | val v =>
            rcases hnd : notifyDepsT n (setValueN (setInstance s1 t (.val v)) t v true) t with ⟨s4, r4⟩
            have hn1 := (ihN (setValueN (setInstance s1 t (.val v)) t v true) t).1
            have hn2 := (ihN (setValueN (setInstance s1 t (.val v)) t v true) t).2
            rw [hnd] at hn1 hn2
            simp only at hn1 hn2
            have hp4 : s4.providers = s.providers := by simp [hn1, hc1]
            have hg4 : GraphInv s → GraphInv s4 := by
              intro h
              refine hn2 ?_
              refine graphInv_of_eq ?_ ?_ (hc2 h) <;> simp
            cases r4 with
            | error e => exact ⟨by simp [resolveT, hg, hc, hnd, hp4],
                fun h => by simp [resolveT, hg, hc, hnd]; exact hg4 h⟩
            | ok u => exact ⟨by simp [resolveT, hg, hc, hnd, hp4],
                fun h => by simp [resolveT, hg, hc, hnd]; exact hg4 h⟩
          | prom q =>
            refine ⟨by simp [resolveT, hg, hc, hc1], fun h => ?_⟩
            simp only [resolveT, hg, hc]
            refine graphInv_of_eq ?_ ?_ (hc2 h) <;> simp
    · -- computeT
      by_cases hv : p.value = JSVal.undefined
      · cases hf : p.factory with
        | none => exact ⟨by simp [computeT, hv, hf], fun h => by simpa [computeT, hv, hf] using h⟩
        | some f =>
          rcases hd : computeDepsT n (registerEdges s t p.deps) p.deps false [] with ⟨s1, r⟩
          have hd1 := (ihD (registerEdges s t p.deps) p.deps false []).1
          have hd2 := (ihD (registerEdges s t p.deps) p.deps false []).2
          rw [hd] at hd1 hd2
          simp only at hd1 hd2
          have hp1 : s1.providers = s.providers := by simp [hd1]
          have hg1 : GraphInv s → GraphInv s1 := fun h => hd2 (registerEdges_graphInv t p.deps h)
          cases r with
          | error e => exact ⟨by simp [computeT, hv, hf, hd, hp1],
              fun h => by simp [computeT, hv, hf, hd]; exact hg1 h⟩
          | ok dout =>
            cases dout with
            | reject pid => exact ⟨by simp [computeT, hv, hf, hd, hp1],
                fun h => by simp [computeT, hv, hf, hd]; exact hg1 h⟩
            | done asy dps =>
              cases asy with
              | true =>
                refine ⟨by simp [computeT, hv, hf, hd, hp1], fun h => ?_⟩
                simp only [computeT, hv, hf, hd, ne_eq, not_true_eq_false, if_false,
                  if_true, ite_true, ite_false]
                refine graphInv_of_eq ?_ ?_ (hg1 h) <;> simp
              | false =>
                rcases hrf : runFactory s1 t p with ⟨s2, fo⟩
                have hr1 : s2.providers = s1.providers := by
                  have := runFactory_providers s1 t p
                  rw [hrf] at this
                  exact this
                have hr2 : GraphInv s1 → GraphInv s2 := by
                  intro h
                  refine graphInv_of_eq ?_ ?_ h
                  · have := runFactory_dependencies s1 t p
                    rw [hrf] at this
                    exact this
                  · have := runFactory_dependents s1 t p
                    rw [hrf] at this
                    exact this
                cases fo with
                | fval v => exact ⟨by simp [computeT, hv, hf, hd, hrf, hr1, hp1],
                    fun h => by simp [computeT, hv, hf, hd, hrf]; exact hr2 (hg1 h)⟩
                | fprom pid => exact ⟨by simp [computeT, hv, hf, hd, hrf, hr1, hp1],
                    fun h => by simp [computeT, hv, hf, hd, hrf]; exact hr2 (hg1 h)⟩
                | fthrown e => exact ⟨by simp [computeT, hv, hf, hd, hrf, hr1, hp1],
                    fun h => by simp [computeT, hv, hf, hd, hrf]; exact hr2 (hg1 h)⟩
      · exact ⟨by simp [computeT, hv], fun h => by simpa [computeT, hv] using h⟩
    · -- computeDepsT
      cases ds with
      | nil => exact ⟨by simp [computeDepsT], fun h => by simpa [computeDepsT] using h⟩
      | cons d rest =>
        cases hp : mget s.providers d.token with
        | none =>
          cases ho : d.optional with
          | true =>
            have h1 := (ihD s rest a l).1
            have h2 := (ihD s rest a l).2
            exact ⟨by simp [computeDepsT, hp, ho, h1], fun h => by simp [computeDepsT, hp, ho]; exact h2 h⟩
          | false =>
            exact ⟨by simp [computeDepsT, hp, ho], fun h => by
              simp only [computeDepsT, hp, ho]
              refine graphInv_of_eq ?_ ?_ h <;> simp⟩
        | some pr =>
          rcases hr : resolveT n s d.token pr with ⟨s1, r⟩
          have hr1 := (ihR s d.token pr).1
          have hr2 := (ihR s d.token pr).2
          rw [hr] at hr1 hr2
          simp only at hr1 hr2
          cases r with
          | error e => exact ⟨by simp [computeDepsT, hp, hr, hr1],
              fun h => by simp [computeDepsT, hp, hr]; exact hr2 h⟩
          | ok c =>
            cases c with
            | val v =>
              have h1 := (ihD s1 rest a l).1
              have h2 := (ihD s1 rest a l).2
              exact ⟨by simp [computeDepsT, hp, hr, h1, hr1],
                fun h => by simp [computeDepsT, hp, hr]; exact h2 (hr2 h)⟩
            | prom pid =>
              have h1 := (ihD s1 rest true (l ++ [pid])).1
              have h2 := (ihD s1 rest true (l ++ [pid])).2
              exact ⟨by simp [computeDepsT, hp, hr, h1, hr1],
                fun h => by simp [computeDepsT, hp, hr]; exact h2 (hr2 h)⟩
    · -- notifyDepsT
      cases hdep : mget s.dependents t with
      | none => exact ⟨by simp [notifyDepsT, hdep], fun h => by simpa [notifyDepsT, hdep] using h⟩
      | some lst =>
        have h1 := (ihL s lst).1
        have h2 := (ihL s lst).2
        exact ⟨by simp [notifyDepsT, hdep, h1], fun h => by simp [notifyDepsT, hdep]; exact h2 h⟩
    · -- notifyListT
      cases l with
      | nil => exact ⟨by simp [notifyListT], fun h => by simpa [notifyListT] using h⟩
      | cons d rest =>
        by_cases hcnt : ((mget s.subCounts d).getD (some 0)) = some 0
        · have h1 := (ihL s rest).1
          have h2 := (ihL s rest).2
          exact ⟨by simp [notifyListT, hcnt, h1], fun h => by simp [notifyListT, hcnt]; exact h2 h⟩
        · cases hp : mget s.providers d with
          | none =>
            have h1 := (ihL (delInstance s d) rest).1
            have h2 := (ihL (delInstance s d) rest).2
            refine ⟨by simp [notifyListT, hcnt, hp, h1], fun h => ?_⟩
            simp only [notifyListT, if_neg hcnt, delInstance_providers, hp]
            exact h2 (graphInv_of_eq (by simp) (by simp) h)
          | some pr =>
            rcases hr : resolveT n (delInstance s d) d pr with ⟨s2, r⟩
            have hr1 := (ihR (delInstance s d) d pr).1
            have hr2 := (ihR (delInstance s d) d pr).2
            rw [hr] at hr1 hr2
            simp only at hr1 hr2
            cases r with
            | error e => exact ⟨by simp [notifyListT, hcnt, hp, hr, hr1],
                fun h => by simp [notifyListT, hcnt, hp, hr]; exact hr2 (graphInv_of_eq (by simp) (by simp) h)⟩
            | ok u =>
              have h1 := (ihL s2 rest).1
              have h2 := (ihL s2 rest).2
              exact ⟨by simp [notifyListT, hcnt, hp, hr, h1, hr1],
                fun h => by simp [notifyListT, hcnt, hp, hr]; exact h2 (hr2 (graphInv_of_eq (by simp) (by simp) h))⟩

theorem resolveT_providers (n : Nat) (s : St) (t : Tok) (p : Prov) :
    (resolveT n s t p).1.providers = s.providers := ((clusterPres n).1 s t p).1

theorem resolveT_graphInv (n : Nat) (s : St) (t : Tok) (p : Prov) (h : GraphInv s) :
    GraphInv (resolveT n s t p).1 := ((clusterPres n).1 s t p).2 h

theorem notifyDepsT_graphInv (n : Nat) (s : St) (t : Tok) (h : GraphInv s) :
    GraphInv (notifyDepsT n s t).1 := ((clusterPres n).2.2.2.1 s t).2 h

theorem graphInv_to_M {s : St} (h : GraphInv s) : GraphInvM s := by
  intro a b hb
  cases hm : mget s.dependencies a with
  | none => rw [hm] at hb; simp at hb
  | some lst =>
    rw [hm] at hb
    simp only [Option.getD_some] at hb
    exact h (a, lst) (mget_mem hm) b hb


/-- If some required dependency has no provider, the dependency-resolution
loop of compute either propagates a synchronous failure or short-circuits
with the rejected promise created by `Promise.reject(new Error('missing
provider'))`. -/
theorem computeDepsT_missing : ∀ (m : Nat) (s : St) (ds : List DepE) (a : Bool) (l : List Nat),
    (∃ d ∈ ds, d.optional = false ∧ mget s.providers d.token = none) →
    (∃ e, (computeDepsT m s ds a l).2 = .error e) ∨
    (∃ pid, (computeDepsT m s ds a l).2 = .ok (.reject pid) ∧
      mget (computeDepsT m s ds a l).1.promises pid =
        some ⟨.settled (.rejected "missing provider"), []⟩ ∧
      pid + 1 = (computeDepsT m s ds a l).1.nextP) := by
  intro m
  induction m with
  | zero => exact fun s ds a l _ => .inl ⟨.fuelOut, rfl⟩
  | succ m ihm =>
    intro s ds a l hmiss
    cases ds with
    | nil => simp at hmiss
    | cons d rest =>
      rcases hmiss with ⟨d', hd', hopt, hnone⟩
      cases hp : mget s.providers d.token with
      | none =>
        cases ho : d.optional with
        | false =>
          refine .inr ⟨s.nextP, ?_, ?_, ?_⟩ <;>
            simp [computeDepsT, hp, ho, mkRejected, mget_mset_self]
        | true =>
          rcases List.mem_cons.mp hd' with rfl | hmem
          · rw [hopt] at ho
            exact absurd ho (by simp)
          · have := ihm s rest a l ⟨d', hmem, hopt, hnone⟩
            simpa [computeDepsT, hp, ho] using this
      | some pr =>
        have hne : d' ∈ rest := by
          rcases List.mem_cons.mp hd' with rfl | hmem
          · rw [hnone] at hp
            exact absurd hp (by simp)
          · exact hmem
        rcases hr : resolveT m s d.token pr with ⟨s1, r⟩
        have hpr : s1.providers = s.providers := by
          have := resolveT_providers m s d.token pr
          rw [hr] at this
          exact this
        cases r with
        | error e => exact .inl ⟨e, by simp [computeDepsT, hp, hr]⟩
        | ok c =>
          cases c with
          | val v =>
            have := ihm s1 rest a l ⟨d', hne, hopt, by rw [hpr]; exact hnone⟩
            simpa [computeDepsT, hp, hr] using this
          | prom pid =>
            have := ihm s1 rest true (l ++ [pid]) ⟨d', hne, hopt, by rw [hpr]; exact hnone⟩
            simpa [computeDepsT, hp, hr] using this


/-- C6: resolving a token whose provider declares a required dependency with
no provider in scope fails: the resolution either throws synchronously or
returns an in-flight promise whose queued reaction rejects it with 'missing
provider'; it never completes with a value (in particular never with
`undefined`). -/
theorem c6_missing_required_rejects (n : Nat) (s : St) (t : Tok) (p : Prov) (f : Fac)
    (hv : p.value = .undefined) (hf : p.factory = some f)
    (hmiss : ∃ d ∈ p.deps, d.optional = false ∧ mget s.providers d.token = none)
    (hcache : instGet s t = none) :
    ((∃ e, (resolveT (n+2) s t p).2 = .error e) ∨
     (∃ q, (resolveT (n+2) s t p).2 = .ok (.prom q) ∧
        mget (resolveT (n+2) s t p).1.promises q = some ⟨.pending, []⟩ ∧
        MTask.react (.thenResolveBody t q) (.rejected "missing provider") ∈
          (resolveT (n+2) s t p).1.queue)) ∧
    ∀ v, (resolveT (n+2) s t p).2 ≠ .ok (.val v) := by
  have hmiss1 : ∃ d ∈ p.deps, d.optional = false ∧
      mget (registerEdges s t p.deps).providers d.token = none := by
    rcases hmiss with ⟨d, hd, ho, hn⟩
    exact ⟨d, hd, ho, by rw [registerEdges_providers]; exact hn⟩
  have hdm := computeDepsT_missing n (registerEdges s t p.deps) p.deps false [] hmiss1
  rcases hcd : computeDepsT n (registerEdges s t p.deps) p.deps false [] with ⟨s1, r⟩
  rw [hcd] at hdm
  simp only at hdm
  rcases hdm with ⟨e, he⟩ | ⟨pid, hok, hprom, hnext⟩
  · subst he
    constructor
    · exact .inl ⟨e, by simp [resolveT, hcache, computeT, hv, hf, hcd]⟩
    · intro v
      simp [resolveT, hcache, computeT, hv, hf, hcd]
  · subst hok
    have hne : s1.nextP ≠ pid := by omega
    have hget : mget (mset s1.promises s1.nextP ⟨.pending, []⟩) pid =
        some ⟨.settled (.rejected "missing provider"), []⟩ := by
      rw [mget_mset_ne _ _ _ _ hne]
      exact hprom
    constructor
    · refine .inr ⟨s1.nextP, ?_, ?_, ?_⟩
      · simp [resolveT, hcache, computeT, hv, hf, hcd, attachR, hget, freshProm]
      · simp [resolveT, hcache, computeT, hv, hf, hcd, attachR, hget, freshProm,
          setInstance, mget_mset_self]
      · simp [resolveT, hcache, computeT, hv, hf, hcd, attachR, hget, freshProm,
          setInstance]
    · intro v
      simp [resolveT, hcache, computeT, hv, hf, hcd, attachR, hget, freshProm]


theorem runFactory_fst_dependencies {s s2 : St} {t : Tok} {p : Prov} {fo : FOut}
    (h : runFactory s t p = (s2, fo)) : s2.dependencies = s.dependencies := by
  have h1 := runFactory_dependencies s t p
  rw [h] at h1
  exact h1

theorem runFactory_fst_dependents {s s2 : St} {t : Tok} {p : Prov} {fo : FOut}
    (h : runFactory s t p = (s2, fo)) : s2.dependents = s.dependents := by
  have h1 := runFactory_dependents s t p
  rw [h] at h1
  exact h1

@[simp] theorem runAllTick_dependencies (s : St) (g : Nat) (o : POut) :
    (runAllTick s g o).dependencies = s.dependencies := by
  unfold runAllTick
  dsimp only
  repeat' split
  all_goals try rfl
  all_goals try simp
  all_goals rename_i heq
  all_goals exact (runFactory_fst_dependencies heq).trans (by rfl)

@[simp] theorem runAllTick_dependents (s : St) (g : Nat) (o : POut) :
    (runAllTick s g o).dependents = s.dependents := by
  unfold runAllTick
  dsimp only
  repeat' split
  all_goals try rfl
  all_goals try simp
  all_goals rename_i heq
  all_goals exact (runFactory_fst_dependents heq).trans (by rfl)

@[simp] theorem unsubHandle_dependencies (s : St) (t : Tok) (cid : Nat) :
    (unsubHandle s t cid).dependencies = s.dependencies := by
  unfold unsubHandle
  dsimp only
  repeat' split
  all_goals rfl

@[simp] theorem unsubHandle_dependents (s : St) (t : Tok) (cid : Nat) :
    (unsubHandle s t cid).dependents = s.dependents := by
  unfold unsubHandle
  dsimp only
  repeat' split
  all_goals rfl

@[simp] theorem disposeLoop_dependencies (s : St) (l : List (Tok × Cached)) :
    (disposeLoop s l).1.dependencies = s.dependencies := by
  induction l generalizing s with
  | nil => rfl
  | cons hd rest ih =>
    obtain ⟨t, c⟩ := hd
    unfold disposeLoop
    dsimp only
    repeat' split
    all_goals first | rfl | apply ih | simp [ih]

@[simp] theorem disposeLoop_dependents (s : St) (l : List (Tok × Cached)) :
    (disposeLoop s l).1.dependents = s.dependents := by
  induction l generalizing s with
  | nil => rfl
  | cons hd rest ih =>
    obtain ⟨t, c⟩ := hd
    unfold disposeLoop
    dsimp only
    repeat' split
    all_goals first | rfl | apply ih | simp [ih]

theorem runTask_graphInv (n : Nat) (s : St) (tk : MTask) (h : GraphInv s) :
    GraphInv (runTask n s tk).1 := by
  cases tk with
  | settleLater pid v => exact graphInv_of_eq (by simp [runTask]) (by simp [runTask]) h
  | react r o =>
    cases r with
    | thenResolveBody t target =>
      cases o with
      | rejected e => exact graphInv_of_eq (by simp [runTask]) (by simp [runTask]) h
      | resolved v =>
        rcases hn : notifyDepsT n (setValueN (setInstance s t (.val v)) t v true) t with ⟨s3, r3⟩
        have hg3 : GraphInv s3 := by
          have h3 := notifyDepsT_graphInv n (setValueN (setInstance s t (.val v)) t v true) t
            (graphInv_of_eq (by simp) (by simp) h)
          rw [hn] at h3
          exact h3
        cases r3 with
        | error e =>
          cases e with
          | thrown m => exact graphInv_of_eq (by simp [runTask, hn]) (by simp [runTask, hn]) hg3
          | fuelOut => exact graphInv_of_eq (by simp [runTask, hn]) (by simp [runTask, hn]) hg3
        | ok u => exact graphInv_of_eq (by simp [runTask, hn]) (by simp [runTask, hn]) hg3
    | thenDeliver t cid =>
      cases o <;> exact graphInv_of_eq (by simp [runTask]) (by simp [runTask]) h
    | thenDeliverSub t cid =>
      cases o <;> exact graphInv_of_eq (by simp [runTask]) (by simp [runTask]) h
    | allTick gid => exact graphInv_of_eq (by simp [runTask]) (by simp [runTask]) h
    | follow target => exact graphInv_of_eq (by simp [runTask]) (by simp [runTask]) h

theorem drain_graphInv : ∀ (n : Nat) (s : St), GraphInv s → GraphInv (drain n s).1
  | 0, s, h => by
    unfold drain
    split <;> exact h
  | n + 1, s, h => by
    unfold drain
    cases hq : s.queue with
    | nil => exact h
    | cons tk rest =>
      rcases hr : runTask n { s with queue := rest } tk with ⟨s1, r1⟩
      have hg1 : GraphInv s1 := by
        have h1 := runTask_graphInv n { s with queue := rest } tk
          (graphInv_of_eq (by simp) (by simp) h)
        rw [hr] at h1
        exact h1
      cases r1 with
      | error e => simp only [hr]; exact hg1
      | ok u => simp only [hr]; exact drain_graphInv n s1 hg1

theorem invalidateT_graphInv (n : Nat) (s : St) (t : Tok) (h : GraphInv s) :
    GraphInv (invalidateT n s t).1 := by
  simp only [invalidateT]
  have hd : GraphInv (delInstance s t) := graphInv_of_eq (by simp) (by simp) h
  cases hp : mget (delInstance s t).providers t with
  | none => exact hd
  | some pr =>
    by_cases hc : jPos ((mget (delInstance s t).subCounts t).getD (some 0)) = true
    · rcases hr : resolveT n (delInstance s t) t pr with ⟨s2, r⟩
      have hg2 : GraphInv s2 := by
        have h2 := resolveT_graphInv n (delInstance s t) t pr hd
        rw [hr] at h2
        exact h2
      cases r with
      | error e => simp only [hc, if_true, hr]; exact hg2
      | ok u => simp only [hc, if_true, hr]; exact notifyDepsT_graphInv n s2 t hg2
    · simp only [hc, if_false]
      exact notifyDepsT_graphInv n (delInstance s t) t hd

theorem registerT_graphInv (n : Nat) (s : St) (p : Prov) (h : GraphInv s) :
    GraphInv (registerT n s p).1 := by
  simp only [registerT]
  split
  · exact h
  · split
    · exact invalidateT_graphInv n _ p.token (graphInv_of_eq (by simp) (by simp) h)
    · exact invalidateT_graphInv n _ p.token (graphInv_of_eq (by simp) (by simp) h)

theorem handleReq_graphInv (n : Nat) (s : St) (t : Tok) (cid : Nat) (b : Bool)
    (h : GraphInv s) : GraphInv (handleReq n s t cid b).1 := by
  simp only [handleReq]
  cases hp : mget s.providers t with
  | none => exact h
  | some pr =>
    rcases hr : resolveT n s t pr with ⟨s1, r⟩
    have hg1 : GraphInv s1 := by
      have h1 := resolveT_graphInv n s t pr h
      rw [hr] at h1
      exact h1
    cases r with
    | error e => simp only [hr]; exact hg1
    | ok c =>
      cases c with
      | prom pid =>
        simp only [hr]
        exact graphInv_of_eq (by simp) (by simp) hg1
      | val v =>
        simp only [hr]
        exact graphInv_of_eq (by simp) (by simp) hg1

theorem disposeAllT_graphInv (s : St) (h : GraphInv s) : GraphInv (disposeAllT s).1 := by
  unfold disposeAllT
  rcases hd : disposeLoop s s.instances with ⟨s1, r⟩
  cases r with
  | some e =>
    simp only [hd]
    refine graphInv_of_eq ?_ ?_ h
    · have h2 := disposeLoop_dependencies s s.instances
      rw [hd] at h2
      exact h2
    · have h2 := disposeLoop_dependents s s.instances
      rw [hd] at h2
      exact h2
  | none =>
    simp only [hd]
    exact graphInv_empty rfl

theorem runOp_graphInv (n : Nat) (s : St) (op : Op) (h : GraphInv s) :
    GraphInv (runOp n s op).1 := by
  cases op with
  | req t cid b => exact handleReq_graphInv n s t cid b h
  | reg p => exact registerT_graphInv n s p h
  | drainOp => exact drain_graphInv n s h
  | unsub t cid => exact graphInv_of_eq (by simp [runOp]) (by simp [runOp]) h
  | disposeOp => exact disposeAllT_graphInv s h

theorem runOps_graphInv : ∀ (ops : List Op) (n : Nat) (s : St),
    GraphInv s → GraphInv (runOps n s ops).1
  | [], _, _, h => h
  | op :: rest, n, s, h => by
    unfold runOps
    rcases hr : runOp n s op with ⟨s1, r⟩
    have hg1 : GraphInv s1 := by
      have h1 := runOp_graphInv n s op h
      rw [hr] at h1
      exact h1
    cases r with
    | error e => simp only [hr]; exact hg1
    | ok u => simp only [hr]; exact runOps_graphInv rest n s1 hg1

theorem foldPro_dependencies (f : St → Prov → St)
    (hf : ∀ s p, (f s p).dependencies = s.dependencies) :
    ∀ (l : List Prov) (s : St), (l.foldl f s).dependencies = s.dependencies
  | [], _ => rfl
  | p :: rest, s => by
    simp only [List.foldl]
    rw [foldPro_dependencies f hf rest (f s p), hf]

theorem mkInjector_graphInv (reg loc : List Prov) : GraphInv (mkInjector reg loc) := by
  refine graphInv_empty ?_
  simp only [mkInjector]
  rw [foldPro_dependencies, foldPro_dependencies] <;> intros <;> rfl

/-- C7 (amended): the direction of the graph invariant the code maintains:
a freshly constructed injector satisfies it, every external operation
preserves it, and it implies the lookup-level forward inclusion (whenever B
is in dependencies[A], A is in dependents[B]).  The converse inclusion is
refuted by the counterexample. -/
theorem c7_graph_forward :
    (∀ reg loc : List Prov, GraphInv (mkInjector reg loc)) ∧
    (∀ (n : Nat) (s : St) (ops : List Op), GraphInv s →
      GraphInv (runOps n s ops).1 ∧ GraphInvM (runOps n s ops).1) :=
  ⟨mkInjector_graphInv, fun n s ops h =>
    ⟨runOps_graphInv ops n s h, graphInv_to_M (runOps_graphInv ops n s h)⟩⟩

/-- C7 witness: the preservation theorem applied to the C7 run (subscribe,
then overwrite the provider), whose initial state's invariant is decided. -/
theorem c7_graph_forward_witness :
    GraphInv (runOps 30 c7s0 [.req 0 1 true, .reg provA7n]).1 ∧
    GraphInvM (runOps 30 c7s0 [.req 0 1 true, .reg provA7n]).1 :=
  c7_graph_forward.2 30 c7s0 [.req 0 1 true, .reg provA7n] (by decide)

/-- C6 witness: the rejection theorem applied to the concrete provider that
declares a required dependency on token 9, for which no provider exists. -/
theorem c6_witness :
    ((∃ e, (resolveT 30 (mkInjector [provMiss] []) 0 provMiss).2 = .error e) ∨
     (∃ q, (resolveT 30 (mkInjector [provMiss] []) 0 provMiss).2 = .ok (.prom q) ∧
        mget (resolveT 30 (mkInjector [provMiss] []) 0 provMiss).1.promises q =
          some ⟨.pending, []⟩ ∧
        MTask.react (.thenResolveBody 0 q) (.rejected "missing provider") ∈
          (resolveT 30 (mkInjector [provMiss] []) 0 provMiss).1.queue)) ∧
    ∀ v, (resolveT 30 (mkInjector [provMiss] []) 0 provMiss).2 ≠ .ok (.val v) :=
  c6_missing_required_rejects 28 (mkInjector [provMiss] []) 0 provMiss
    (fun _ _ => .val (.int 1)) rfl rfl
    ⟨{ token := 9 }, List.Mem.head _, rfl, rfl⟩ rfl

/-- C10: a cache entry holding the settled value `undefined` is treated as a
cache miss: resolve proceeds to compute and invokes the factory again (the
call counter increases by one and a fresh in-flight promise is returned for
an asynchronous factory).  The closed conjuncts instantiate the synchronous
case: the factory that settled to `undefined` has been invoked a second time
(count 2) by a resolve issued after its first settlement. -/
theorem c10_undefined_not_cached :
    (∀ (n : Nat) (s : St) (t : Tok) (p : Prov) (f : Fac) (v : JSVal),
      mget s.instances t = some (.val .undefined) →
      p.value = .undefined → p.deps = [] → p.factory = some f →
      (∀ g r, f g r = FacRes.later v) →
      mget ((resolveT (n+3) s t p).1).calls t = some ((mget s.calls t).getD 0 + 1) ∧
      (∃ q, (resolveT (n+3) s t p).2 = .ok (.prom q))) ∧
    mget c1StA.1.instances 5 = some (.val .undefined) ∧
    mget c1StB.1.calls 5 = some 2 := by
  refine ⟨?_, by decide, by decide⟩
  intro n s t p f v hc hv hd hf hlater
  constructor
  · simp [resolveT, instGet, hc, computeT, hv, hd, hf, computeDepsT, runFactory,
      hlater, mget_mset_self]
  · refine ⟨(freshProm (runFactory (registerEdges s t []) t p).1).2, ?_⟩
    simp [resolveT, instGet, hc, computeT, hv, hd, hf, computeDepsT, runFactory, hlater]

/-- C10 witness: the theorem applied to the concrete state in which token 5
settled to `undefined`, with an asynchronous factory: the resolve invokes the
factory again (count goes from 1 to 2) and returns a fresh pending promise. -/
theorem c10_witness :
    (mget ((resolveT 3 c1StA.1 5 provLater).1).calls 5 =
      some ((mget c1StA.1.calls 5).getD 0 + 1)) ∧
    (∃ q, (resolveT 3 c1StA.1 5 provLater).2 = .ok (.prom q)) :=
  c10_undefined_not_cached.1 0 c1StA.1 5 provLater laterFac (.int 7)
    (by decide) rfl rfl rfl (fun _ _ => rfl)


theorem mkInjector_localShape : LocalShape (mkInjector [] [provLoc]) :=
  ⟨rfl, rfl, rfl, rfl, rfl, rfl, rfl⟩

theorem invalidateT_localShape (n : Nat) (s : St) (t : Tok) (h : LocalShape s) :
    invalidateT (n+1) s t = (delInstance s t, .ok ()) ∧ LocalShape (delInstance s t) := by
  obtain ⟨h1, h2, h3, h4, h5, h6, h7⟩ := h
  constructor
  · simp only [invalidateT]
    cases hp : mget (delInstance s t).providers t with
    | none => rfl
    | some pr =>
      simp [h2, h3, notifyDepsT, jPos, mget]
  · refine ⟨?_, h2, h3, h4, h5, h6, h7⟩
    show mdel s.instances t = []
    rw [h1]
    rfl

theorem registerT_localShape (n : Nat) (s : St) (p : Prov) (h : LocalShape s) :
    ∃ s1, registerT (n+1) s p = (s1, .ok ()) ∧ LocalShape s1 := by
  obtain ⟨h1, h2, h3, h4, h5, h6, h7⟩ := h
  by_cases hmem : p.token ∈ s.localToks
  · exact ⟨s, by simp [registerT, hmem], h1, h2, h3, h4, h5, h6, h7⟩
  · have hne : p.token ≠ 0 := fun h0 => hmem (by rw [h5, h0]; exact List.Mem.head _)
    have hp0 : mget (mset s.providers p.token p) 0 = some provLoc := by
      rw [mget_mset_ne _ _ _ _ hne]
      exact h6
    cases hn : mget ({ s with providers := mset s.providers p.token p } : St).notifs p.token with
    | some nf =>
      have hsh2 : LocalShape { s with providers := mset s.providers p.token p } :=
        ⟨h1, h2, h3, h4, h5, hp0, h7⟩
      obtain ⟨heq, hsh3⟩ := invalidateT_localShape n _ p.token hsh2
      refine ⟨_, ?_, hsh3⟩
      simp only [registerT, if_neg hmem, hn, heq]
    | none =>
      have hn0 : mget (mset ({ s with providers := mset s.providers p.token p } : St).notifs p.token ({} : Notif)) 0 = some {} := by
        rw [mget_mset_ne _ _ _ _ hne]
        exact h7
      have hsh2 : LocalShape { s with providers := mset s.providers p.token p, notifs := mset s.notifs p.token {} } :=
        ⟨h1, h2, h3, h4, h5, hp0, hn0⟩
      obtain ⟨heq, hsh3⟩ := invalidateT_localShape n _ p.token hsh2
      refine ⟨_, ?_, hsh3⟩
      simp only [registerT, if_neg hmem, hn, heq]

theorem regOps_localShape : ∀ (ps : List Prov) (n : Nat) (s : St), LocalShape s →
    (runOps (n+1) s (ps.map Op.reg)).2 = .ok () ∧
    LocalShape (runOps (n+1) s (ps.map Op.reg)).1
  | [], _, _, h => ⟨rfl, h⟩
  | p :: rest, n, s, h => by
    obtain ⟨s1, heq, hsh⟩ := registerT_localShape n s p h
    have hrec := regOps_localShape rest n s1 hsh
    simp only [List.map, runOps, runOp, heq]
    exact hrec


theorem handleReq_localShape (n : Nat) (s : St) (cid : Nat) (h : LocalShape s) :
    (handleReq (n+2) s 0 cid false).2 = .ok () ∧
    mget (handleReq (n+2) s 0 cid false).1.delivered cid = some [.int 5] := by
  obtain ⟨h1, h2, h3, h4, h5, h6, h7⟩ := h
  have hig : instGet s 0 = none := by
    unfold instGet
    rw [h1]
    rfl
  have hres : resolveT (n+2) s 0 provLoc =
      (setValueN (setInstance s 0 (.val (.int 5))) 0 (.int 5) true, .ok (.val (.int 5))) := by
    simp [resolveT, hig, computeT, provLoc, notifyDepsT, h2, mget]
  have hnot : mget (setValueN (setInstance s 0 (.val (.int 5))) 0 (.int 5) true).notifs 0 =
      some { nvalue := .int 5, subs := [] } := by
    simp [setValueN, setInstance, h7, deliverAll, mget_mset_self]
  have hdel : (setValueN (setInstance s 0 (.val (.int 5))) 0 (.int 5) true).delivered = [] := by
    simp [setValueN, setInstance, h7, deliverAll, h4]
  constructor
  · simp [handleReq, h6, hres]
  · simp [handleReq, h6, hres, addFn, ensureNotif, hnot, deliverTo, hdel, mget, mget_mset_self]

/-- C5: a locally-declared provider always wins: after any sequence of
registry registrations, the injector's provider table still maps the local
token to the local provider, the whole register sequence succeeds, and a
consumer request for the token still resolves and delivers the local value
5, however many registrations targeted that token. -/
theorem c5_local_precedence (n : Nat) (ps : List Prov) (cid : Nat) :
    mget ((runOps (n+1) (mkInjector [] [provLoc]) (ps.map Op.reg)).1).providers 0 =
      some provLoc ∧
    (runOps (n+1) (mkInjector [] [provLoc]) (ps.map Op.reg)).2 = .ok () ∧
    (handleReq (n+2) ((runOps (n+1) (mkInjector [] [provLoc]) (ps.map Op.reg)).1) 0 cid false).2 =
      .ok () ∧
    mget ((handleReq (n+2) ((runOps (n+1) (mkInjector [] [provLoc]) (ps.map Op.reg)).1) 0 cid false).1).delivered cid =
      some [.int 5] := by
  obtain ⟨hok, hsh⟩ := regOps_localShape ps n (mkInjector [] [provLoc]) mkInjector_localShape
  obtain ⟨hq, hd⟩ := handleReq_localShape n _ cid hsh
  exact ⟨hsh.2.2.2.2.2.1, hok, hq, hd⟩

end LitDI
